import Mathlib

/-!
# Shape correction of MeshAdapt (`ma/maShape.cc`)

A shallow embedding of the shape-quality repair code: the sliver classifier
(`getSliverCode`, `matchSliver`), the quality oracle (`unMarkBadQuality`,
`getMinQuality`), the fixers (`ShortEdgeFixer`, `FixBySwap`, `FaceVertFixer`,
`EdgeEdgeFixer`), the operator adapters (`LargeAngleTetFixer`,
`LargeAngleTetAligner`, `LargeAngleTriFixer`) and the two orchestration loops
(`fixElementShapes`, `alignElements`).

Conventions:
* an entity handle is a natural number, and a pointer member that may be null
  is an `Option Entity`;
* a `double` that holds a quality, a length or a cosine is a rational number,
  and comparisons and minima are exact; the one division of such numbers, in
  the short edge fixer, is a parameter, so that its rounding is left open;
* in the sliver classifier, where the code can divide 0 by 0, a `double` is a
  `Double`: a number, an infinity or NaN, with exact arithmetic on the numbers;
* a C++ `int` is an integer;
* what the code calls but this file does not contain (the mesh, the size field,
  the swap and collapse operators, the geometric primitives) is a parameter of
  the definition that uses it.
-/

namespace ma

/-- An entity handle (a non-null `Entity*`). -/
abbrev Entity := Nat

/-- A `double` of the sliver classifier: a number, an infinity, or NaN. -/
inductive Double
  | num (q : ℚ)
  | posInf
  | negInf
  | nan
deriving DecidableEq

/-- The difference `x - y` of two doubles: exact on numbers; NaN when an
operand is NaN or both are the same infinity. -/
def Double.sub : Double → Double → Double
  | Double.num a, Double.num b => Double.num (a - b)
  | Double.nan, _ => Double.nan
  | _, Double.nan => Double.nan
  | Double.posInf, Double.posInf => Double.nan
  | Double.negInf, Double.negInf => Double.nan
  | Double.posInf, _ => Double.posInf
  | Double.negInf, _ => Double.negInf
  | Double.num _, Double.posInf => Double.negInf
  | Double.num _, Double.negInf => Double.posInf

instance : Sub Double := ⟨Double.sub⟩

/-- The comparison `x < y` of two doubles, which is false when an operand is
NaN. -/
def Double.lt : Double → Double → Bool
  | Double.num a, Double.num b => decide (a < b)
  | Double.nan, _ => false
  | _, Double.nan => false
  | _, Double.negInf => false
  | Double.negInf, _ => true
  | Double.posInf, _ => false
  | Double.num _, Double.posInf => true

/-- A 3-vector of the geometry library (`Vector`), indexed like `v[i]`. -/
abbrev Vector3 := Fin 3 → Double

/-- A 3x3 matrix of the geometry library (`Matrix`), `J[i]` being its row `i`. -/
abbrev Matrix3x3 := Fin 3 → Vector3

/-! ## Sliver classifier -/

/-- The collaborators of `getSliverCode`: the Jacobian of a tetrahedron at its
centre, the size field's transform there, and the geometric primitives. All are
external to `maShape.cc` and left arbitrary. -/
structure SliverGeometry where
  getJacobian : Entity → Matrix3x3
  getTransform : Entity → Matrix3x3
  mul : Matrix3x3 → Matrix3x3 → Matrix3x3
  cross : Vector3 → Vector3 → Vector3
  project : Vector3 → Vector3 → Vector3
  transpose : Matrix3x3 → Matrix3x3
  invert : Matrix3x3 → Matrix3x3
  mulVec : Matrix3x3 → Vector3 → Vector3

/-- The vector `basisPoint` of `getSliverCode`: vertex 3 projected onto the
bottom face, in the basis of that face (lines 41-52). -/
def basisPoint (g : SliverGeometry) (tet : Entity) : Vector3 :=
  let J0 := g.mul (g.getJacobian tet) (g.getTransform tet)
  let v03 := J0 2
  let J := Function.update J0 2 (g.cross (J0 0) (J0 1))
  let projected := v03 - g.project v03 (J 2)
  let inverseMap := g.invert (g.transpose J)
  g.mulVec inverseMap projected

/-- The vector `areaPoint` of `getSliverCode` (lines 53-55). -/
def areaPoint (b : Vector3) : Vector3 :=
  ![Double.num 1 - b 0 - b 1, b 0, b 1]

/-- The loop of `getSliverCode` (lines 56-59): bit `i` of the code is switched
on when area coordinate `i` is positive. -/
def sliverCodeBits (area : Vector3) : Nat :=
  ([0, 1, 2] : List (Fin 3)).foldl
    (fun code i =>
      if Double.lt (Double.num 0) (area i) then code ||| (1 <<< i.val) else code) 0

/-- The function `getSliverCode`; `none` is the abort of `PCU_ALWAYS_ASSERT(code)`. -/
def getSliverCode (g : SliverGeometry) (tet : Entity) : Option Nat :=
  let code := sliverCodeBits (areaPoint (basisPoint g tet))
  if code = 0 then none else some code

/-- The pair `CodeMatch` returned by `matchSliver`. -/
structure CodeMatch where
  rotation : Int
  code_index : Int
deriving DecidableEq, Repr

/-- First member of `enum { EDGE_EDGE, FACE_VERT }`. -/
def EDGE_EDGE : Int := 0

/-- Second member of `enum { EDGE_EDGE, FACE_VERT }`. -/
def FACE_VERT : Int := 1

/-- The constant `table` of `matchSliver` (lines 69-78). -/
def matchSliverTable : List CodeMatch :=
  [⟨-1, -1⟩, ⟨4, 1⟩, ⟨1, 1⟩, ⟨2, 0⟩, ⟨2, 1⟩, ⟨0, 0⟩, ⟨1, 0⟩, ⟨0, 1⟩]

/-- The lookup `table[code]` of `matchSliver` (line 79). -/
def matchSliverCode (code : Nat) : Option CodeMatch :=
  matchSliverTable[code]?

/-- The function `matchSliver`: `table[getSliverCode(a,tet)]`. -/
def matchSliver (g : SliverGeometry) (tet : Entity) : Option CodeMatch :=
  match getSliverCode g tet with
  | none => none
  | some code => matchSliverCode code

/-- The two strategies `LargeAngleTetFixer` chooses between. -/
inductive TetFixerKind
  | edgeEdgeFixer
  | faceVertFixer
deriving DecidableEq, Repr

/-- The dispatch of `LargeAngleTetFixer::shouldApply` (lines 426-431); `none`
is the abort of `PCU_ALWAYS_ASSERT(match.code_index==FACE_VERT)`. -/
def LargeAngleTetFixer.selectFixer (m : CodeMatch) : Option TetFixerKind :=
  if m.code_index = EDGE_EDGE then some TetFixerKind.edgeEdgeFixer
  else if m.code_index = FACE_VERT then some TetFixerKind.faceVertFixer
  else none

/-! ## Mesh and flag store -/

/-- The part of the mesh interface the code below uses: `getDimension()`, the
entities that `begin(d)` / `iterate` visit, in order, `getType(e)` and
`getDownward(e,d,...)`. -/
structure Mesh where
  getDimension : Nat
  entities : Nat → List Entity
  getType : Entity → Nat
  getDownward : Entity → Nat → List Entity

/-- The flag bits of an entity: the two this code needs, and the others. -/
inductive Flag
  | BAD_QUALITY
  | OK_QUALITY
  | other (bit : Nat)
deriving DecidableEq, Repr

/-- Modelled from the spec: the flag store of the adapt context, which
`maShape.cc` only uses through `getFlag`, `setFlag` and `clearFlag`: a mapping
from entity handle to a bit-set, the bit-set being given by its members. -/
abbrev FlagStore := Entity → Flag → Bool

/-- Modelled from the spec: `getFlag(a,e,flag)`, whether the bit is in the
entity's bit-set. -/
def getFlag (fs : FlagStore) (e : Entity) (flag : Flag) : Bool :=
  fs e flag

/-- Modelled from the spec: `setFlag(a,e,flag)`, which puts the bit in the
entity's bit-set and changes nothing else. -/
def setFlag (fs : FlagStore) (e : Entity) (flag : Flag) : FlagStore :=
  fun e2 f2 => if e2 = e ∧ f2 = flag then true else fs e2 f2

/-- Modelled from the spec: `clearFlag(a,e,flag)`, which takes the bit out of
the entity's bit-set and changes nothing else. -/
def clearFlag (fs : FlagStore) (e : Entity) (flag : Flag) : FlagStore :=
  fun e2 f2 => if e2 = e ∧ f2 = flag then false else fs e2 f2

/-! ## Quality oracle -/

/-- The function `unMarkBadQuality` (lines 98-111): one pass over the entities
of top dimension. -/
def unMarkBadQuality (m : Mesh) (fs : FlagStore) : FlagStore :=
  (m.entities m.getDimension).foldl
    (fun st e => if getFlag st e Flag.BAD_QUALITY then clearFlag st e Flag.BAD_QUALITY else st) fs

/-- One process of the parallel run: its part of the mesh and its quality
measure `a->shape->getQuality`. -/
structure Part where
  mesh : Mesh
  getQuality : Entity → ℚ

/-- The loop of `getMinQuality` (lines 119-129): the value of `minqual` that
one process passes to the reduction. -/
def localMinQuality (isSimplex : Nat → Bool) (p : Part) : ℚ :=
  (p.mesh.entities p.mesh.getDimension).foldl
    (fun minqual e =>
      if isSimplex (p.mesh.getType e) = false then minqual
      else
        let qual := p.getQuality e
        if qual < minqual then qual else minqual) 1

/-- Modelled from the spec: `PCU_Min_Double`, the blocking reduction that gives
every process the global minimum of the values contributed, `x` by the caller
and `others` by its peers. -/
def PCU_Min_Double (others : List ℚ) (x : ℚ) : ℚ :=
  others.foldl min x

/-- The function `getMinQuality` as the process `self` runs it, its peers
running it on their own parts. -/
def getMinQuality (isSimplex : Nat → Bool) (self : Part) (peers : List Part) : ℚ :=
  PCU_Min_Double (peers.map (localMinQuality isSimplex)) (localMinQuality isSimplex self)

/-! ## Short edge fixer -/

/-- The members of `ShortEdgeFixer` that change; `removerEdge` is the edge last
given to `remover.setEdge`. -/
structure ShortEdgeFixer where
  element : Option Entity
  removerEdge : Option Entity
  shortEdgeRatio : ℚ
  nr : Int
  nf : Int

/-- The second loop of `ShortEdgeFixer::shouldApply` (lines 165-173) over the
edges from index 1 on, each paired with its length. -/
def ShortEdgeFixer.scan : List (Entity × ℚ) → ℚ × ℚ × Entity → ℚ × ℚ × Entity
  | [], acc => acc
  | (ed, li) :: rest, (maxLength, minLength, shortEdge) =>
    let maxLength1 := if li > maxLength then li else maxLength
    if li < minLength then ShortEdgeFixer.scan rest (maxLength1, li, ed)
    else ShortEdgeFixer.scan rest (maxLength1, minLength, shortEdge)

/-- The function `ShortEdgeFixer::shouldApply` (lines 150-181); `quotient` is
the division of doubles of line 174, whatever its rounding. The result is
`none` where the C++ has no defined result: more than 6 edges overrun the
buffer `l[6]`, and with no edge at all `edges[0]` is read without having been
written. -/
def ShortEdgeFixer.shouldApply (m : Mesh) (measure : Entity → ℚ)
    (quotient : ℚ → ℚ → ℚ) (fs : FlagStore) (self : ShortEdgeFixer) (e : Entity) :
    Option (Bool × FlagStore × ShortEdgeFixer) :=
  if getFlag fs e Flag.BAD_QUALITY = false then some (false, fs, self)
  else
    let self1 := { self with element := some e }
    let edges := m.getDownward e 1
    if 6 < edges.length then none
    else
      let l := edges.map measure
      match edges.zip l with
      | [] => none
      | (e0, l0) :: rest =>
        let r := ShortEdgeFixer.scan rest (l0, l0, e0)
        if quotient r.1 r.2.1 < self.shortEdgeRatio then
          some (false, clearFlag fs e Flag.BAD_QUALITY, self1)
        else
          some (true, fs, { self1 with removerEdge := some r.2.2 })

/-! ## Tetrahedron fixers -/

/-- A call of one of the external operators, as a fixer's `run` makes it:
`edgeSwap->run(edges[i])`, `doubleSplitCollapse.run(edges)` or
`faceSplitCollapse.run(face, tet)`. -/
inductive Attempt
  | edgeSwap (i : Nat)
  | doubleSplitCollapse
  | faceSplitCollapse
deriving DecidableEq, Repr

/-- What the external operators answer when called: `edgeSwap i` for the swap
of `edges[i]`, `splitCollapse` for the split-collapse of the fixer. -/
structure Outcomes where
  edgeSwap : Nat → Bool
  splitCollapse : Bool

/-- The loop `for (int i=0; i < n; ++i) if (edgeSwap->run(edges[i])) ...` of the
fixers, from index `i` with `todo` indices left; it returns whether a swap
succeeded, and the calls made, added to `log`. -/
def swapLoop (edgeSwap : Nat → Bool) : Nat → Nat → List Attempt → Bool × List Attempt
  | 0, _, log => (false, log)
  | todo + 1, i, log =>
    if edgeSwap i then (true, log ++ [Attempt.edgeSwap i])
    else swapLoop edgeSwap todo (i + 1) (log ++ [Attempt.edgeSwap i])

/-- The counters of `FaceVertFixer`. -/
structure FaceVertFixer where
  nes : Int
  nfsc : Int
  nf : Int
deriving DecidableEq, Repr

/-- The function `FaceVertFixer::run` (lines 315-330): the value returned, the
fixer afterwards, and the calls made, in order. -/
def FaceVertFixer.run (o : Outcomes) (self : FaceVertFixer) :
    Bool × FaceVertFixer × List Attempt :=
  let swapped := swapLoop o.edgeSwap 3 0 []
  if swapped.1 then (true, { self with nes := self.nes + 1 }, swapped.2)
  else if o.splitCollapse then
    (true, { self with nfsc := self.nfsc + 1 }, swapped.2 ++ [Attempt.faceSplitCollapse])
  else (false, { self with nf := self.nf + 1 }, swapped.2 ++ [Attempt.faceSplitCollapse])

/-- The counters of `EdgeEdgeFixer`. -/
structure EdgeEdgeFixer where
  nes : Int
  ndsc : Int
  nf : Int
deriving DecidableEq, Repr

/-- The function `EdgeEdgeFixer::run` (lines 375-390): the value returned, the
fixer afterwards, and the calls made, in order. -/
def EdgeEdgeFixer.run (o : Outcomes) (self : EdgeEdgeFixer) :
    Bool × EdgeEdgeFixer × List Attempt :=
  let swapped := swapLoop o.edgeSwap 2 0 []
  if swapped.1 then (true, { self with nes := self.nes + 1 }, swapped.2)
  else if o.splitCollapse then
    (true, { self with ndsc := self.ndsc + 1 }, swapped.2 ++ [Attempt.doubleSplitCollapse])
  else (false, { self with nf := self.nf + 1 }, swapped.2 ++ [Attempt.doubleSplitCollapse])

/-- The answer of the external operators to a call. -/
def Outcomes.answer (o : Outcomes) : Attempt → Bool
  | Attempt.edgeSwap i => o.edgeSwap i
  | Attempt.doubleSplitCollapse => o.splitCollapse
  | Attempt.faceSplitCollapse => o.splitCollapse

/-! ## Triangle fixer -/

/-- The members of `LargeAngleTriFixer` that change. -/
structure LargeAngleTriFixer where
  tri : Option Entity
  edge : Option Entity
  ns : Int
  nf : Int
deriving DecidableEq, Repr

/-- The constructor `LargeAngleTriFixer::LargeAngleTriFixer` (lines 512-520). -/
def LargeAngleTriFixer.new : LargeAngleTriFixer :=
  { tri := none, edge := none, ns := 0, nf := 0 }

/-- The collaborators of `LargeAngleTriFixer::shouldApply`: the size field's
transform `Q` at the centre of a triangle, and `apf::computeCosAngle(mesh, tri,
current, next, Q)`. -/
structure TriGeometry where
  getTransform : Entity → Matrix3x3
  computeCosAngle : Entity → Entity → Entity → Matrix3x3 → ℚ

/-- The loop of `LargeAngleTriFixer::shouldApply` (lines 542-550) from index
`i` with `todo` indices left, on the pair (`minCos`, `edge`). -/
def LargeAngleTriFixer.scan (g : TriGeometry) (tri : Entity) (Q : Matrix3x3)
    (edges : Fin 3 → Entity) : Nat → Nat → ℚ × Option Entity → ℚ × Option Entity
  | 0, _, acc => acc
  | todo + 1, i, (minCos, edge) =>
    let current := edges (Fin.ofNat (i % 3))
    let next := edges (Fin.ofNat ((i + 1) % 3))
    let cosAngle := g.computeCosAngle tri current next Q
    if cosAngle < minCos then
      LargeAngleTriFixer.scan g tri Q edges todo (i + 1)
        (cosAngle, some (edges (Fin.ofNat ((i + 2) % 3))))
    else LargeAngleTriFixer.scan g tri Q edges todo (i + 1) (minCos, edge)

/-- The function `LargeAngleTriFixer::shouldApply` (lines 526-552). The result
is `none` where the C++ has no defined result: the entity does not have the
three edges that `edges[3]` holds. -/
def LargeAngleTriFixer.shouldApply (m : Mesh) (g : TriGeometry) (fs : FlagStore)
    (self : LargeAngleTriFixer) (e : Entity) : Option (Bool × LargeAngleTriFixer) :=
  if getFlag fs e Flag.BAD_QUALITY = false then some (false, self)
  else
    let Q := g.getTransform e
    match m.getDownward e 1 with
    | [e0, e1, e2] =>
      let r := LargeAngleTriFixer.scan g e Q ![e0, e1, e2] 3 0 (1, self.edge)
      some (true, { self with tri := some e, edge := r.2 })
    | _ => none

/-! ## Orchestration loops -/

/-- What the orchestration loops call, in the order they call it;
`markBadQuality` carries the count the call returned. -/
inductive Event
  | markBadQuality (count : Int)
  | fixLargeAngles
  | snap
  | fixShortEdgeElements
  | alignLargeAngles
  | unMarkBadQuality
  | midBalance
deriving DecidableEq, Repr

/-- The local variables of `fixElementShapes` and `alignElements` between two
iterations (`iter` is `i` in `alignElements`, and `prev_count` is `none` until
it is assigned), with the number of calls of `markBadQuality` made so far and
the calls made so far. -/
structure LoopState where
  originalCount : Int
  count : Int
  prev_count : Option Int
  iter : Int
  marked : Nat
  trace : List Event
deriving DecidableEq, Repr

/-- One pass through the body of the loop of `fixElementShapes` (lines
649-670), entered with `count` not zero. `marks k` is what the call number `k`
of `markBadQuality` returns. -/
def fixElementShapes.body (dimension : Nat) (marks : Nat → Int) (s : LoopState) : LoopState :=
  let prev_count := s.count
  let t1 := s.trace ++ [Event.fixLargeAngles]
  let t2 := if dimension = 3 then t1 ++ [Event.snap] else t1
  let count1 := marks s.marked
  let t3 := t2 ++ [Event.markBadQuality count1, Event.fixShortEdgeElements]
  let count2 := marks (s.marked + 1)
  let t4 := t3 ++ [Event.markBadQuality count2]
  let t5 := if count2 ≥ prev_count then t4 ++ [Event.unMarkBadQuality] else t4
  { s with count := count2, prev_count := some prev_count, iter := s.iter + 1,
           marked := s.marked + 2, trace := t5 ++ [Event.midBalance] }

/-- The loop of `fixElementShapes` (lines 646-671): `break` when `count` is
zero, else the body, and again while `count < prev_count`. Each entry into the
loop uses one unit of `fuel`; `none` is a run the fuel did not suffice for. -/
def fixElementShapes.loop (dimension : Nat) (marks : Nat → Int) :
    Nat → LoopState → Option LoopState
  | 0, _ => none
  | fuel + 1, s =>
    if s.count = 0 then some s
    else
      let s1 := fixElementShapes.body dimension marks s
      if s1.count < s.count then fixElementShapes.loop dimension marks fuel s1
      else some s1

/-- The function `fixElementShapes` (lines 636-675) on a mesh of the given
dimension. The result is `none` when the fuel does not suffice, `some none`
when `shouldFixShape` is off, and else the variables at the final `print`. -/
def fixElementShapes (shouldFixShape : Bool) (dimension : Nat) (marks : Nat → Int)
    (fuel : Nat) : Option (Option LoopState) :=
  if shouldFixShape = false then some none
  else
    let count := marks 0
    (fixElementShapes.loop dimension marks fuel
      { originalCount := count, count := count, prev_count := none, iter := 0, marked := 1,
        trace := [Event.markBadQuality count] }).map some

/-- One pass through the body of the loop of `alignElements` (lines 690-695),
entered with `count` not zero. -/
def alignElements.body (max_iter : Int) (marks : Nat → Int) (s : LoopState) : LoopState :=
  let prev_count := s.count
  let count := marks s.marked
  let i := s.iter + 1
  let t1 := s.trace ++ [Event.alignLargeAngles, Event.markBadQuality count]
  let t2 := if count ≥ prev_count ∨ i ≥ max_iter then t1 ++ [Event.unMarkBadQuality] else t1
  { s with count := count, prev_count := some prev_count, iter := i,
           marked := s.marked + 1, trace := t2 }

/-- The loop of `alignElements` (lines 687-696): `break` when `count` is zero,
else the body, and again while `count < prev_count && i < max_iter`; `fuel` as
in `fixElementShapes.loop`. -/
def alignElements.loop (max_iter : Int) (marks : Nat → Int) :
    Nat → LoopState → Option LoopState
  | 0, _ => none
  | fuel + 1, s =>
    if s.count = 0 then some s
    else
      let s1 := alignElements.body max_iter marks s
      if s1.count < s.count ∧ s1.iter < max_iter then alignElements.loop max_iter marks fuel s1
      else some s1

/-- The function `alignElements` (lines 677-701), with the results of
`fixElementShapes`. -/
def alignElements (shouldFixShape : Bool) (marks : Nat → Int) (fuel : Nat) :
    Option (Option LoopState) :=
  let max_iter : Int := 5
  if shouldFixShape = false then some none
  else
    let count := marks 0
    (alignElements.loop max_iter marks fuel
      { originalCount := count, count := count, prev_count := none, iter := 0, marked := 1,
        trace := [Event.markBadQuality count] }).map some

/-- The number of times a run executed the body of its loop up to the repair
call: the calls of `fixLargeAngles` or `alignLargeAngles` in its trace. -/
def repairCalls (trace : List Event) : Nat :=
  (trace.filter (fun ev => ev = Event.fixLargeAngles ∨ ev = Event.alignLargeAngles)).length

/-! ## Operator adapters -/

/-- The members of `FixBySwap` that change. -/
structure FixBySwap where
  numToTry : Nat
  nes : Int
  nf : Int
deriving DecidableEq, Repr

/-- The function `FixBySwap::setTet` (lines 233-258) on the tetrahedron that
`findElement` finds from the vertices, as far as `run` depends on it: the
number of edges to try. The result is `none` where an assertion aborts. -/
def FixBySwap.setTet (g : SliverGeometry) (self : FixBySwap) (tet : Entity) :
    Option FixBySwap :=
  match matchSliver g tet with
  | none => none
  | some m =>
    if m.code_index = EDGE_EDGE then some { self with numToTry := 2 }
    else if m.code_index = FACE_VERT then some { self with numToTry := 3 }
    else none

/-- The function `FixBySwap::run` (lines 263-273): the value returned, the fixer
afterwards, and the calls made, in order. -/
def FixBySwap.run (o : Outcomes) (self : FixBySwap) : Bool × FixBySwap × List Attempt :=
  let swapped := swapLoop o.edgeSwap self.numToTry 0 []
  if swapped.1 then (true, { self with nes := self.nes + 1 }, swapped.2)
  else (false, { self with nf := self.nf + 1 }, swapped.2)

/-- The members of `LargeAngleTetFixer` that change; `fixer` points to one of
the two fixers it owns, or is null. -/
structure LargeAngleTetFixer where
  tet : Option Entity
  fixer : Option TetFixerKind
  edgeEdgeFixer : EdgeEdgeFixer
  faceVertFixer : FaceVertFixer
deriving DecidableEq, Repr

/-- The function `LargeAngleTetFixer::shouldApply` (lines 420-438): the value
returned, the flag store and the adapter afterwards. The result is `none` where
an assertion aborts. The call `fixer->setTet(rv)` looks up the edges of the
rotated tetrahedron in the mesh and changes none of the members kept here. -/
def LargeAngleTetFixer.shouldApply (g : SliverGeometry) (fs : FlagStore)
    (self : LargeAngleTetFixer) (e : Entity) :
    Option (Bool × FlagStore × LargeAngleTetFixer) :=
  if getFlag fs e Flag.BAD_QUALITY = false then some (false, fs, self)
  else
    match matchSliver g e with
    | none => none
    | some m =>
      match LargeAngleTetFixer.selectFixer m with
      | none => none
      | some kind => some (true, fs, { self with tet := some e, fixer := some kind })

/-- The call `fixer->run()` of `LargeAngleTetFixer::apply`: the value returned,
the adapter afterwards, and the calls made. The result is `none` when `fixer`
is null. -/
def LargeAngleTetFixer.run (o : Outcomes) (self : LargeAngleTetFixer) :
    Option (Bool × LargeAngleTetFixer × List Attempt) :=
  match self.fixer with
  | none => none
  | some TetFixerKind.edgeEdgeFixer =>
    let r := EdgeEdgeFixer.run o self.edgeEdgeFixer
    some (r.1, { self with edgeEdgeFixer := r.2.1 }, r.2.2)
  | some TetFixerKind.faceVertFixer =>
    let r := FaceVertFixer.run o self.faceVertFixer
    some (r.1, { self with faceVertFixer := r.2.1 }, r.2.2)

/-- The function `LargeAngleTetFixer::apply` (lines 443-447): the flag store and
the adapter afterwards, and the calls made. The result is `none` when `fixer`
is null, or `tet` is when its flag is to be cleared. -/
def LargeAngleTetFixer.apply (o : Outcomes) (fs : FlagStore) (self : LargeAngleTetFixer) :
    Option (FlagStore × LargeAngleTetFixer × List Attempt) :=
  match LargeAngleTetFixer.run o self with
  | none => none
  | some (ok, self1, log) =>
    if ok = false then
      match self.tet with
      | none => none
      | some tet => some (clearFlag fs tet Flag.BAD_QUALITY, self1, log)
    else some (fs, self1, log)

/-- The members of `LargeAngleTetAligner` that change. -/
structure LargeAngleTetAligner where
  tet : Option Entity
  fixer : FixBySwap
deriving DecidableEq, Repr

/-- The function `LargeAngleTetAligner::shouldApply` (lines 472-492): the value
returned, the flag store and the adapter afterwards. The result is `none` where
an assertion aborts. -/
def LargeAngleTetAligner.shouldApply (g : SliverGeometry) (fs : FlagStore)
    (self : LargeAngleTetAligner) (e : Entity) :
    Option (Bool × FlagStore × LargeAngleTetAligner) :=
  if getFlag fs e Flag.BAD_QUALITY = false then some (false, fs, self)
  else
    match matchSliver g e with
    | none => none
    | some m =>
      if m.code_index = EDGE_EDGE then
        some (false, clearFlag fs e Flag.BAD_QUALITY, { self with tet := some e })
      else
        match FixBySwap.setTet g self.fixer e with
        | none => none
        | some fixer1 => some (true, fs, { tet := some e, fixer := fixer1 })

/-- The function `LargeAngleTetAligner::apply` (lines 497-501): the flag store
and the adapter afterwards, and the calls made. The result is `none` when `tet`
is null and its flag is to be cleared. -/
def LargeAngleTetAligner.apply (o : Outcomes) (fs : FlagStore) (self : LargeAngleTetAligner) :
    Option (FlagStore × LargeAngleTetAligner × List Attempt) :=
  let r := FixBySwap.run o self.fixer
  if r.1 = false then
    match self.tet with
    | none => none
    | some tet => some (clearFlag fs tet Flag.BAD_QUALITY, { self with fixer := r.2.1 }, r.2.2)
  else some (fs, { self with fixer := r.2.1 }, r.2.2)

/-- The function `LargeAngleTriFixer::apply` (lines 557-566), `swapped` being
the answer of `edgeSwap->run(edge)`: the flag store and the adapter afterwards.
The result is `none` when `tri` is null and its flag is to be cleared. -/
def LargeAngleTriFixer.apply (swapped : Bool) (fs : FlagStore) (self : LargeAngleTriFixer) :
    Option (FlagStore × LargeAngleTriFixer) :=
  if swapped then some (fs, { self with ns := self.ns + 1 })
  else
    match self.tri with
    | none => none
    | some tri => some (clearFlag fs tri Flag.BAD_QUALITY, { self with nf := self.nf + 1 })

/-- The function `ShortEdgeFixer::apply` (lines 186-195), `removed` being the
answer of `remover.run()`: the flag store and the adapter afterwards. The
result is `none` when `element` is null and its flag is to be cleared. -/
def ShortEdgeFixer.apply (removed : Bool) (fs : FlagStore) (self : ShortEdgeFixer) :
    Option (FlagStore × ShortEdgeFixer) :=
  if removed then some (fs, { self with nr := self.nr + 1 })
  else
    match self.element with
    | none => none
    | some element =>
      some (clearFlag fs element Flag.BAD_QUALITY, { self with nf := self.nf + 1 })

/-! ## The calls of the loops and the flag store -/

/-- The adapt context as far as the flags go: the mesh and the flag store. -/
structure Adapt where
  mesh : Mesh
  flags : FlagStore

/-- What a call of the orchestration loops does to the adapt context:
`unMarkBadQuality` is the function of that name; the other calls are external,
and `external` gives what they do. -/
def Event.effect (external : Event → Adapt → Adapt) (ev : Event) (a : Adapt) : Adapt :=
  match ev with
  | Event.unMarkBadQuality => { a with flags := ma.unMarkBadQuality a.mesh a.flags }
  | _ => external ev a

/-- The adapt context after the calls of a trace, made in order. -/
def replay (external : Event → Adapt → Adapt) (trace : List Event) (a : Adapt) : Adapt :=
  trace.foldl (fun st ev => Event.effect external ev st) a

/-! ## Concrete inputs -/

/-- An `isSimplex` for the examples: of the element types, numbered vertex 0,
edge 1, triangle 2, quadrilateral 3, tetrahedron 4 and so on, the simplices. -/
def simplexTypes (t : Nat) : Bool :=
  t = 0 || t = 1 || t = 2 || t = 4

/-- A mesh of dimension 2 whose only element is the triangle 7, with the edges
11, 12, 13. -/
def oneTriangleMesh : Mesh :=
  { getDimension := 2
    entities := fun d => if d = 2 then [7] else if d = 1 then [11, 12, 13] else []
    getType := fun e => if e = 7 then 2 else 1
    getDownward := fun e d => if e = 7 ∧ d = 1 then [11, 12, 13] else [] }

/-- The mesh `oneTriangleMesh` with a quality measure that gives every element
quality 2. -/
def oneTrianglePart : Part :=
  { mesh := oneTriangleMesh, getQuality := fun _ => 2 }

/-- The counts 5, 6, 7, ...: every call of `markBadQuality` finds one more bad
element than the call before. -/
def risingMarks (k : Nat) : Int :=
  5 + k

/-- The counts 4, 3, 2, 1, 0, 0, ...: every call of `markBadQuality` finds one
bad element less than the call before, until none is left. -/
def settlingMarks (k : Nat) : Int :=
  ((4 - k : Nat) : Int)

/-- The counts 7, 6, 5, 5, 5, ...: the first iteration repairs two elements,
the second none. -/
def stallingMarks (k : Nat) : Int :=
  ((7 - min k 2 : Nat) : Int)

/-- The counts 100, 99, 98, ...: every call of `markBadQuality` returns less
than the call before, for ever. -/
def fallingMarks (k : Nat) : Int :=
  100 - k

/-- A mesh of dimension 3 whose only element is the tetrahedron 1, with the
edges 11 to 16 in bounding order. -/
def oneTetMesh : Mesh :=
  { getDimension := 3
    entities := fun d => if d = 3 then [1] else if d = 1 then [11, 12, 13, 14, 15, 16] else []
    getType := fun e => if e = 1 then 4 else 1
    getDownward := fun e d => if e = 1 ∧ d = 1 then [11, 12, 13, 14, 15, 16] else [] }

/-- The division of doubles without rounding. -/
def exactQuotient (a b : ℚ) : ℚ :=
  a / b

/-- The metric lengths [1,1,1,1,1,10] of the edges 11 to 16. -/
def lengthsUpTo10 (x : Entity) : ℚ :=
  if x = 16 then 10 else 1

/-- The metric lengths [1,1,1,1,1,2] of the edges 11 to 16. -/
def lengthsUpTo2 (x : Entity) : ℚ :=
  if x = 16 then 2 else 1

/-- The flag store in which the only flag set is `BAD_QUALITY` of entity 1. -/
def onlyOneBad : FlagStore :=
  fun e f => decide (e = 1 ∧ f = Flag.BAD_QUALITY)

/-- A short edge fixer as its constructor leaves it, for `maximumEdgeRatio = 3`. -/
def freshShortEdgeFixer : ShortEdgeFixer :=
  { element := none, removerEdge := none, shortEdgeRatio := 3, nr := 0, nf := 0 }

/-- A mesh of dimension 2 with the triangles 7, of edges 11, 12, 13, and 8, of
edges 21, 22, 23. -/
def twoTriangleMesh : Mesh :=
  { getDimension := 2
    entities := fun d =>
      if d = 2 then [7, 8] else if d = 1 then [11, 12, 13, 21, 22, 23] else []
    getType := fun e => if e = 7 ∨ e = 8 then 2 else 1
    getDownward := fun e d =>
      if e = 7 ∧ d = 1 then [11, 12, 13] else if e = 8 ∧ d = 1 then [21, 22, 23] else [] }

/-- A geometry in which the triangle 8 has the angles of a triangle of sides 3,
4, 5 (cosine 0 between its edges 21 and 22, then 3/5 and 4/5), and every cosine
of any other triangle is 1. -/
def flatGeometry : TriGeometry :=
  { getTransform := fun _ => fun _ _ => Double.num 0
    computeCosAngle := fun tri current _ _ =>
      if tri = 8 then (if current = 21 then 0 else if current = 22 then 3 / 5 else 4 / 5)
      else 1 }

/-- A geometry in which every triangle has three angles of `π/3`, of cosine
1/2. -/
def equilateralGeometry : TriGeometry :=
  { getTransform := fun _ => fun _ _ => Double.num 0
    computeCosAngle := fun _ _ _ _ => 1 / 2 }

/-- The flag store in which the triangles 7 and 8 are flagged `BAD_QUALITY` and
no other flag is set. -/
def bothBad : FlagStore :=
  fun e f => decide ((e = 7 ∨ e = 8) ∧ f = Flag.BAD_QUALITY)

/-- A geometry for the tetrahedron fixers in which the projected basis point of
every tetrahedron is (1/4, 1/4), so that the three area coordinates are
positive and the sliver code is 7. -/
def faceVertGeometry : SliverGeometry :=
  { getJacobian := fun _ => fun _ _ => Double.num 0
    getTransform := fun _ => fun _ _ => Double.num 0
    mul := fun a _ => a
    cross := fun a _ => a
    project := fun a _ => a
    transpose := fun a => a
    invert := fun a => a
    mulVec := fun _ _ => ![Double.num (1 / 4), Double.num (1 / 4), Double.num 0] }

/-- The adapter `LargeAngleTetFixer` as its constructor leaves it (lines
406-414). -/
def freshTetFixer : LargeAngleTetFixer :=
  { tet := none, fixer := none, edgeEdgeFixer := ⟨0, 0, 0⟩, faceVertFixer := ⟨0, 0, 0⟩ }

/-- The adapter `LargeAngleTetAligner` as its constructor leaves it (lines
461-467). -/
def freshTetAligner : LargeAngleTetAligner :=
  { tet := none, fixer := { numToTry := 0, nes := 0, nf := 0 } }

/-- External operators that fail at every call. -/
def allFail : Outcomes :=
  { edgeSwap := fun _ => false, splitCollapse := false }

/-- A geometry for a tetrahedron whose base is collinear: the face normal
`cross(J[0],J[1])` is zero, the projection onto it divides 0 by 0 and is NaN,
and so are the inverse map and, with them, the basis point. -/
def collinearBaseGeometry : SliverGeometry :=
  { getJacobian := fun _ => fun _ _ => Double.num 0
    getTransform := fun _ => fun _ _ => Double.num 0
    mul := fun a _ => a
    cross := fun _ _ => fun _ => Double.num 0
    project := fun _ _ => fun _ => Double.nan
    transpose := fun a => a
    invert := fun _ => fun _ _ => Double.nan
    mulVec := fun _ v => v }

/-! ## Theorems: sliver classifier -/

/-- C1: for each sliver code 1..7 the table lookup of `matchSliver` gives the
pair of the specification, the template index being `EDGE_EDGE = 0` or
`FACE_VERT = 1`; `matchSliver` is that lookup at the code of the tetrahedron,
and the dispatch of `LargeAngleTetFixer` sends the codes 3, 5, 6 to the
edge-edge fixer and 1, 2, 4, 7 to the face-vertex fixer. -/
theorem matchSliver_table_entries :
    (EDGE_EDGE = 0 ∧ FACE_VERT = 1) ∧
    (matchSliverCode 1 = some ⟨4, FACE_VERT⟩ ∧
     matchSliverCode 2 = some ⟨1, FACE_VERT⟩ ∧
     matchSliverCode 3 = some ⟨2, EDGE_EDGE⟩ ∧
     matchSliverCode 4 = some ⟨2, FACE_VERT⟩ ∧
     matchSliverCode 5 = some ⟨0, EDGE_EDGE⟩ ∧
     matchSliverCode 6 = some ⟨1, EDGE_EDGE⟩ ∧
     matchSliverCode 7 = some ⟨0, FACE_VERT⟩) ∧
    (∀ (g : SliverGeometry) (tet : Entity) (code : Nat),
      getSliverCode g tet = some code → matchSliver g tet = matchSliverCode code) ∧
    ((matchSliverCode 1).bind LargeAngleTetFixer.selectFixer = some TetFixerKind.faceVertFixer ∧
     (matchSliverCode 2).bind LargeAngleTetFixer.selectFixer = some TetFixerKind.faceVertFixer ∧
     (matchSliverCode 3).bind LargeAngleTetFixer.selectFixer = some TetFixerKind.edgeEdgeFixer ∧
     (matchSliverCode 4).bind LargeAngleTetFixer.selectFixer = some TetFixerKind.faceVertFixer ∧
     (matchSliverCode 5).bind LargeAngleTetFixer.selectFixer = some TetFixerKind.edgeEdgeFixer ∧
     (matchSliverCode 6).bind LargeAngleTetFixer.selectFixer = some TetFixerKind.edgeEdgeFixer ∧
     (matchSliverCode 7).bind LargeAngleTetFixer.selectFixer = some TetFixerKind.faceVertFixer) := by
  refine ⟨by decide, by decide, ?_, by decide⟩
  intro g tet code h
  simp [matchSliver, h]

/-- The bits of the code built by the loop of `getSliverCode`. -/
theorem sliverCodeBits_bits (a : Vector3) :
    (((sliverCodeBits a).testBit 0 = true ↔ Double.lt (Double.num 0) (a 0) = true) ∧
     ((sliverCodeBits a).testBit 1 = true ↔ Double.lt (Double.num 0) (a 1) = true) ∧
     ((sliverCodeBits a).testBit 2 = true ↔ Double.lt (Double.num 0) (a 2) = true)) ∧
    sliverCodeBits a ≤ 7 ∧
    (sliverCodeBits a = 0 ↔
      Double.lt (Double.num 0) (a 0) = false ∧ Double.lt (Double.num 0) (a 1) = false ∧
        Double.lt (Double.num 0) (a 2) = false) := by
  unfold sliverCodeBits
  cases h0 : Double.lt (Double.num 0) (a 0) <;> cases h1 : Double.lt (Double.num 0) (a 1) <;>
    cases h2 : Double.lt (Double.num 0) (a 2) <;>
    simp [h0, h1, h2] <;> decide

/-- When neither coordinate of the basis point is NaN, one of the three area
coordinates `1-b0-b1`, `b0`, `b1` is positive. -/
theorem areaPoint_positive (b0 b1 : Double) (h0 : b0 ≠ Double.nan) (h1 : b1 ≠ Double.nan) :
    Double.lt (Double.num 0) (Double.num 1 - b0 - b1) = true ∨
    Double.lt (Double.num 0) b0 = true ∨ Double.lt (Double.num 0) b1 = true := by
  cases b0 with
  | nan => exact absurd rfl h0
  | posInf => exact Or.inr (Or.inl rfl)
  | negInf =>
    cases b1 with
    | nan => exact absurd rfl h1
    | posInf => exact Or.inr (Or.inr rfl)
    | negInf => exact Or.inl rfl
    | num y => exact Or.inl rfl
  | num x =>
    cases b1 with
    | nan => exact absurd rfl h1
    | posInf => exact Or.inr (Or.inr rfl)
    | negInf => exact Or.inl rfl
    | num y =>
      by_cases hx : 0 < x
      · exact Or.inr (Or.inl (by simp [Double.lt, hx]))
      · by_cases hy : 0 < y
        · exact Or.inr (Or.inr (by simp [Double.lt, hy]))
        · left
          have h : (0 : ℚ) < 1 - x - y := by linarith
          show Double.lt (Double.num 0) (Double.num (1 - x - y)) = true
          simp [Double.lt, h]

/-- C6, amended: the code that `getSliverCode` returns lies in [1,7] and has
bit `i` set exactly when the area coordinate `i` of `(1-b0-b1, b0, b1)` is
positive, `(b0, b1)` being the projected basis point; the assertion aborts
exactly when no area coordinate is positive, which does not happen when neither
`b0` nor `b1` is NaN. -/
theorem getSliverCode_bits (g : SliverGeometry) (tet : Entity) :
    (∀ code, getSliverCode g tet = some code →
      1 ≤ code ∧ code ≤ 7 ∧
      (code.testBit 0 = true ↔
        Double.lt (Double.num 0) (Double.num 1 - basisPoint g tet 0 - basisPoint g tet 1) =
          true) ∧
      (code.testBit 1 = true ↔ Double.lt (Double.num 0) (basisPoint g tet 0) = true) ∧
      (code.testBit 2 = true ↔ Double.lt (Double.num 0) (basisPoint g tet 1) = true)) ∧
    (getSliverCode g tet = none ↔
      Double.lt (Double.num 0) (Double.num 1 - basisPoint g tet 0 - basisPoint g tet 1) = false ∧
      Double.lt (Double.num 0) (basisPoint g tet 0) = false ∧
      Double.lt (Double.num 0) (basisPoint g tet 1) = false) ∧
    (basisPoint g tet 0 ≠ Double.nan → basisPoint g tet 1 ≠ Double.nan →
      ∃ code, getSliverCode g tet = some code ∧ 1 ≤ code ∧ code ≤ 7) := by
  obtain ⟨⟨hb0, hb1, hb2⟩, hle, hz⟩ := sliverCodeBits_bits (areaPoint (basisPoint g tet))
  have ha0 : areaPoint (basisPoint g tet) 0 =
      Double.num 1 - basisPoint g tet 0 - basisPoint g tet 1 := by simp [areaPoint]
  have ha1 : areaPoint (basisPoint g tet) 1 = basisPoint g tet 0 := by simp [areaPoint]
  have ha2 : areaPoint (basisPoint g tet) 2 = basisPoint g tet 1 := by simp [areaPoint]
  rw [ha0] at hb0 hz
  rw [ha1] at hb1 hz
  rw [ha2] at hb2 hz
  have hnone : getSliverCode g tet = none ↔
      sliverCodeBits (areaPoint (basisPoint g tet)) = 0 := by
    simp [getSliverCode]
  refine ⟨?_, hnone.trans hz, ?_⟩
  · intro code hcode
    have hc : sliverCodeBits (areaPoint (basisPoint g tet)) = code ∧ code ≠ 0 := by
      simp only [getSliverCode] at hcode
      split at hcode
      · cases hcode
      · rename_i hne
        cases hcode
        exact ⟨rfl, hne⟩
    obtain ⟨rfl, hne⟩ := hc
    exact ⟨by omega, hle, hb0, hb1, hb2⟩
  · intro h0 h1
    have hne : sliverCodeBits (areaPoint (basisPoint g tet)) ≠ 0 := by
      intro h
      obtain ⟨n0, n1, n2⟩ := hz.mp h
      rcases areaPoint_positive _ _ h0 h1 with p | p | p
      · rw [n0] at p; cases p
      · rw [n1] at p; cases p
      · rw [n2] at p; cases p
    exact ⟨sliverCodeBits (areaPoint (basisPoint g tet)), by simp [getSliverCode, hne],
      by omega, hle⟩

/-- The sliver code of the geometry `faceVertGeometry` is 7. -/
theorem getSliverCode_faceVertGeometry : getSliverCode faceVertGeometry 1 = some 7 := by
  have hbits : (1 ||| 1 <<< 1 ||| 1 <<< 2 : Nat) = 7 := by decide
  have hs : (Double.num 1 - Double.num (1 / 4) - Double.num (1 / 4) : Double) =
      Double.num (1 - 1 / 4 - 1 / 4) := rfl
  norm_num [getSliverCode, sliverCodeBits, areaPoint, basisPoint, faceVertGeometry, hs,
    Double.lt, hbits]

/-- C6 at a concrete input: the basis point (1/4, 1/4) has the area coordinates
(1/2, 1/4, 1/4), and the code is 7. -/
theorem getSliverCode_bits_witness :
    (basisPoint faceVertGeometry 1 0 ≠ Double.nan ∧
      basisPoint faceVertGeometry 1 1 ≠ Double.nan) ∧
    (∃ code, getSliverCode faceVertGeometry 1 = some code ∧ 1 ≤ code ∧ code ≤ 7) ∧
    getSliverCode faceVertGeometry 1 = some 7 := by
  have h0 : basisPoint faceVertGeometry 1 0 ≠ Double.nan := by
    simp [basisPoint, faceVertGeometry]
  have h1 : basisPoint faceVertGeometry 1 1 ≠ Double.nan := by
    simp [basisPoint, faceVertGeometry]
  exact ⟨⟨h0, h1⟩, (getSliverCode_bits faceVertGeometry 1).2.2 h0 h1,
    getSliverCode_faceVertGeometry⟩

/-- C6, as stated, fails: on a tetrahedron whose base is collinear the basis
point is NaN, no area coordinate is positive, the code is 0 and the assertion
of `getSliverCode` aborts, so that no code in [1,7] is returned. -/
theorem getSliverCode_aborts_on_nan :
    basisPoint collinearBaseGeometry 1 0 = Double.nan ∧
    basisPoint collinearBaseGeometry 1 1 = Double.nan ∧
    sliverCodeBits (areaPoint (basisPoint collinearBaseGeometry 1)) = 0 ∧
    getSliverCode collinearBaseGeometry 1 = none ∧
    ¬ ∃ code, getSliverCode collinearBaseGeometry 1 = some code ∧ 1 ≤ code ∧ code ≤ 7 := by
  have hb : ∀ i, basisPoint collinearBaseGeometry 1 i = Double.nan := by
    intro i
    rfl
  have hcode : sliverCodeBits (areaPoint (basisPoint collinearBaseGeometry 1)) = 0 := by
    have ha : ∀ i, Double.lt (Double.num 0) (areaPoint (basisPoint collinearBaseGeometry 1) i)
        = false := by
      intro i
      fin_cases i <;> rfl
    simp [sliverCodeBits, ha]
  have hnone : getSliverCode collinearBaseGeometry 1 = none := by
    simp [getSliverCode, hcode]
  exact ⟨hb 0, hb 1, hcode, hnone, by simp [hnone]⟩

/-! ## Theorems: quality oracle -/

/-- The flags after the pass of `unMarkBadQuality` over a list of entities. -/
theorem getFlag_unMark_foldl (l : List Entity) (fs : FlagStore) (e : Entity) (flag : Flag) :
    getFlag (l.foldl (fun st x =>
        if getFlag st x Flag.BAD_QUALITY then clearFlag st x Flag.BAD_QUALITY else st) fs) e flag =
      (if flag = Flag.BAD_QUALITY ∧ e ∈ l then false else getFlag fs e flag) := by
  induction l generalizing fs with
  | nil => simp
  | cons a l ih =>
    rw [List.foldl_cons, ih]
    by_cases hf : flag = Flag.BAD_QUALITY <;> by_cases hl : e ∈ l <;> by_cases ha : e = a <;>
      by_cases hg : getFlag fs a Flag.BAD_QUALITY = true <;>
      simp_all [getFlag, clearFlag]

/-- C10: after `unMarkBadQuality` the flag store is the one before with
`BAD_QUALITY` cleared on every entity of top dimension: that bit reads false
there, and every other bit of every entity, `OK_QUALITY` included, and the
`BAD_QUALITY` bit of the other entities read as before. -/
theorem unMarkBadQuality_flags (m : Mesh) (fs : FlagStore) (e : Entity) (flag : Flag) :
    getFlag (unMarkBadQuality m fs) e flag =
      (if flag = Flag.BAD_QUALITY ∧ e ∈ m.entities m.getDimension then false
       else getFlag fs e flag) := by
  unfold unMarkBadQuality
  exact getFlag_unMark_foldl _ fs e flag

/-- The value of `minqual` after the loop of `getMinQuality`, started at `init`. -/
theorem minqual_foldl (isSimplex : Nat → Bool) (p : Part) (l : List Entity) (init : ℚ) :
    let r := l.foldl (fun minqual e =>
      if isSimplex (p.mesh.getType e) = false then minqual
      else
        let qual := p.getQuality e
        if qual < minqual then qual else minqual) init
    r ≤ init ∧
    (∀ e ∈ l, isSimplex (p.mesh.getType e) = true → r ≤ p.getQuality e) ∧
    (r = init ∨ ∃ e ∈ l, isSimplex (p.mesh.getType e) = true ∧ r = p.getQuality e) := by
  induction l generalizing init with
  | nil => simp
  | cons a l ih =>
    simp only [List.foldl_cons]
    by_cases hs : isSimplex (p.mesh.getType a) = false
    · simp only [hs, if_true]
      obtain ⟨h1, h2, h3⟩ := ih init
      refine ⟨h1, ?_, ?_⟩
      · intro e he hse
        rcases List.mem_cons.mp he with rfl | he
        · simp [hs] at hse
        · exact h2 e he hse
      · rcases h3 with h3 | ⟨e, he, hse, h3⟩
        · exact Or.inl h3
        · exact Or.inr ⟨e, List.mem_cons_of_mem _ he, hse, h3⟩
    · simp only [hs, if_false]
      have hs1 : isSimplex (p.mesh.getType a) = true := by simpa using hs
      by_cases hq : p.getQuality a < init
      · simp only [hq, if_true]
        obtain ⟨h1, h2, h3⟩ := ih (p.getQuality a)
        refine ⟨le_trans h1 (le_of_lt hq), ?_, ?_⟩
        · intro e he hse
          rcases List.mem_cons.mp he with rfl | he
          · exact h1
          · exact h2 e he hse
        · rcases h3 with h3 | ⟨e, he, hse, h3⟩
          · exact Or.inr ⟨a, List.mem_cons_self _ _, hs1, h3⟩
          · exact Or.inr ⟨e, List.mem_cons_of_mem _ he, hse, h3⟩
      · simp only [hq, if_false]
        obtain ⟨h1, h2, h3⟩ := ih init
        refine ⟨h1, ?_, ?_⟩
        · intro e he hse
          rcases List.mem_cons.mp he with rfl | he
          · exact le_trans h1 (not_lt.mp hq)
          · exact h2 e he hse
        · rcases h3 with h3 | ⟨e, he, hse, h3⟩
          · exact Or.inl h3
          · exact Or.inr ⟨e, List.mem_cons_of_mem _ he, hse, h3⟩

/-- The reduction `PCU_Min_Double` gives the least of the values contributed. -/
theorem PCU_Min_Double_least (others : List ℚ) (x : ℚ) :
    PCU_Min_Double others x ≤ x ∧ (∀ y ∈ others, PCU_Min_Double others x ≤ y) ∧
    (PCU_Min_Double others x = x ∨ PCU_Min_Double others x ∈ others) := by
  unfold PCU_Min_Double
  induction others generalizing x with
  | nil => simp
  | cons a l ih =>
    simp only [List.foldl_cons]
    obtain ⟨h1, h2, h3⟩ := ih (min x a)
    refine ⟨le_trans h1 (min_le_left _ _), ?_, ?_⟩
    · intro y hy
      rcases List.mem_cons.mp hy with rfl | hy
      · exact le_trans h1 (min_le_right _ _)
      · exact h2 y hy
    · rcases h3 with h3 | h3
      · rcases min_choice x a with hm | hm
        · exact Or.inl (h3.trans hm)
        · exact Or.inr (by rw [h3, hm]; exact List.mem_cons_self _ _)
      · exact Or.inr (List.mem_cons_of_mem _ h3)

/-- C5, amended: `getMinQuality` returns the smaller of 1 and the least quality
of the simplicial elements of top dimension of all parts: it is at most 1, at
most the quality of each such element, and it is 1 or the quality of one of
them. Elements that are not simplices have no part in it. -/
theorem getMinQuality_min (isSimplex : Nat → Bool) (self : Part) (peers : List Part) :
    getMinQuality isSimplex self peers ≤ 1 ∧
    (∀ p ∈ self :: peers, ∀ e ∈ p.mesh.entities p.mesh.getDimension,
      isSimplex (p.mesh.getType e) = true →
        getMinQuality isSimplex self peers ≤ p.getQuality e) ∧
    (getMinQuality isSimplex self peers = 1 ∨
      ∃ p ∈ self :: peers, ∃ e ∈ p.mesh.entities p.mesh.getDimension,
        isSimplex (p.mesh.getType e) = true ∧
          getMinQuality isSimplex self peers = p.getQuality e) := by
  have hloc : ∀ p : Part, localMinQuality isSimplex p ≤ 1 ∧
      (∀ e ∈ p.mesh.entities p.mesh.getDimension, isSimplex (p.mesh.getType e) = true →
        localMinQuality isSimplex p ≤ p.getQuality e) ∧
      (localMinQuality isSimplex p = 1 ∨ ∃ e ∈ p.mesh.entities p.mesh.getDimension,
        isSimplex (p.mesh.getType e) = true ∧ localMinQuality isSimplex p = p.getQuality e) :=
    fun p => minqual_foldl isSimplex p _ 1
  obtain ⟨g1, g2, g3⟩ := PCU_Min_Double_least (peers.map (localMinQuality isSimplex))
    (localMinQuality isSimplex self)
  have hle : ∀ p ∈ self :: peers,
      getMinQuality isSimplex self peers ≤ localMinQuality isSimplex p := by
    intro p hp
    rcases List.mem_cons.mp hp with rfl | hp
    · exact g1
    · exact g2 _ (List.mem_map_of_mem _ hp)
  have hat : ∃ p ∈ self :: peers,
      getMinQuality isSimplex self peers = localMinQuality isSimplex p := by
    rcases g3 with g3 | g3
    · exact ⟨self, List.mem_cons_self _ _, g3⟩
    · obtain ⟨p, hp, hpe⟩ := List.mem_map.mp g3
      exact ⟨p, List.mem_cons_of_mem _ hp, hpe.symm⟩
  refine ⟨le_trans g1 (hloc self).1, ?_, ?_⟩
  · intro p hp e he hs
    exact le_trans (hle p hp) ((hloc p).2.1 e he hs)
  · obtain ⟨p, hp, hpe⟩ := hat
    rcases (hloc p).2.2 with h | ⟨e, he, hs, h⟩
    · exact Or.inl (hpe.trans h)
    · exact Or.inr ⟨p, hp, e, he, hs, hpe.trans h⟩

/-- C5, as stated, fails: on one part whose only element is a triangle of
quality 2, `getMinQuality` returns 1, which is the quality of no element. -/
theorem getMinQuality_not_min :
    oneTrianglePart.mesh.entities oneTrianglePart.mesh.getDimension = [7] ∧
    simplexTypes (oneTrianglePart.mesh.getType 7) = true ∧
    oneTrianglePart.getQuality 7 = 2 ∧
    getMinQuality simplexTypes oneTrianglePart [] = 1 ∧
    ¬ ∃ e ∈ oneTrianglePart.mesh.entities oneTrianglePart.mesh.getDimension,
        simplexTypes (oneTrianglePart.mesh.getType e) = true ∧
        getMinQuality simplexTypes oneTrianglePart [] = oneTrianglePart.getQuality e := by
  have h : getMinQuality simplexTypes oneTrianglePart [] = 1 := by
    norm_num [getMinQuality, PCU_Min_Double, localMinQuality, oneTrianglePart, oneTriangleMesh,
      simplexTypes]
  refine ⟨rfl, by decide, rfl, h, ?_⟩
  rw [h]
  simp [oneTrianglePart, oneTriangleMesh]

/-! ## Theorems: tetrahedron fixers -/

/-- C8: whatever the external operators answer, `EdgeEdgeFixer::run` and
`FaceVertFixer::run` call them in the fixed order (2, resp. 3, edge swaps, then
the split-collapse), stop at the first call that succeeds, call the
split-collapse once when every swap failed and else not at all, return true
exactly when a call they made succeeded, and add 1 to exactly one of their
three counters: the swap counter when a swap succeeded, the split-collapse
counter when the split-collapse did, the failure counter when they return
false. -/
theorem fixer_run_cascade (o : Outcomes) (ee : EdgeEdgeFixer) (fv : FaceVertFixer) :
    ((EdgeEdgeFixer.run o ee).2.2 <+:
        [Attempt.edgeSwap 0, Attempt.edgeSwap 1, Attempt.doubleSplitCollapse] ∧
      (∀ a ∈ (EdgeEdgeFixer.run o ee).2.2.dropLast, o.answer a = false) ∧
      (EdgeEdgeFixer.run o ee).2.2.getLast?.map o.answer = some (EdgeEdgeFixer.run o ee).1 ∧
      (EdgeEdgeFixer.run o ee).2.2.count Attempt.doubleSplitCollapse =
        (if o.edgeSwap 0 = false ∧ o.edgeSwap 1 = false then 1 else 0) ∧
      ((EdgeEdgeFixer.run o ee).1 = true ↔
        ∃ a ∈ (EdgeEdgeFixer.run o ee).2.2, o.answer a = true) ∧
      (EdgeEdgeFixer.run o ee).2.1 =
        (if o.edgeSwap 0 = true ∨ o.edgeSwap 1 = true then { ee with nes := ee.nes + 1 }
         else if o.splitCollapse = true then { ee with ndsc := ee.ndsc + 1 }
         else { ee with nf := ee.nf + 1 }) ∧
      ((EdgeEdgeFixer.run o ee).2.1.nf = ee.nf + 1 ↔ (EdgeEdgeFixer.run o ee).1 = false)) ∧
    ((FaceVertFixer.run o fv).2.2 <+:
        [Attempt.edgeSwap 0, Attempt.edgeSwap 1, Attempt.edgeSwap 2,
          Attempt.faceSplitCollapse] ∧
      (∀ a ∈ (FaceVertFixer.run o fv).2.2.dropLast, o.answer a = false) ∧
      (FaceVertFixer.run o fv).2.2.getLast?.map o.answer = some (FaceVertFixer.run o fv).1 ∧
      (FaceVertFixer.run o fv).2.2.count Attempt.faceSplitCollapse =
        (if o.edgeSwap 0 = false ∧ o.edgeSwap 1 = false ∧ o.edgeSwap 2 = false then 1
         else 0) ∧
      ((FaceVertFixer.run o fv).1 = true ↔
        ∃ a ∈ (FaceVertFixer.run o fv).2.2, o.answer a = true) ∧
      (FaceVertFixer.run o fv).2.1 =
        (if o.edgeSwap 0 = true ∨ o.edgeSwap 1 = true ∨ o.edgeSwap 2 = true then
           { fv with nes := fv.nes + 1 }
         else if o.splitCollapse = true then { fv with nfsc := fv.nfsc + 1 }
         else { fv with nf := fv.nf + 1 }) ∧
      ((FaceVertFixer.run o fv).2.1.nf = fv.nf + 1 ↔ (FaceVertFixer.run o fv).1 = false)) := by
  constructor
  · cases h0 : o.edgeSwap 0 <;> cases h1 : o.edgeSwap 1 <;> cases hc : o.splitCollapse <;>
      simp [EdgeEdgeFixer.run, swapLoop, Outcomes.answer, h0, h1, hc, List.prefix_iff_eq_take]
  · cases h0 : o.edgeSwap 0 <;> cases h1 : o.edgeSwap 1 <;> cases h2 : o.edgeSwap 2 <;>
      cases hc : o.splitCollapse <;>
      simp [FaceVertFixer.run, swapLoop, Outcomes.answer, h0, h1, h2, hc,
        List.prefix_iff_eq_take]

/-! ## Theorems: orchestration loops -/

/-- The repair calls of a trace put together from two. -/
theorem repairCalls_append (t u : List Event) :
    repairCalls (t ++ u) = repairCalls t + repairCalls u := by
  simp [repairCalls, List.filter_append]

/-- One pass through the body of the loop of `fixElementShapes` makes one
repair call. -/
theorem fixElementShapes_body_repairCalls (dimension : Nat) (marks : Nat → Int) (s : LoopState) :
    repairCalls (fixElementShapes.body dimension marks s).trace = repairCalls s.trace + 1 := by
  unfold fixElementShapes.body
  simp only
  split <;> split <;> simp [repairCalls_append] <;> simp [repairCalls]

/-- The loop of `fixElementShapes`, entered with a count that is not negative
and not above the original count, and with more fuel than that count, returns;
it runs at most `count` iterations, and ends either with a count that is not
above the original one or in an iteration that did not lower the count. -/
theorem fixElementShapes_loop_returns (dimension : Nat) (marks : Nat → Int)
    (hnn : ∀ k, 0 ≤ marks k) :
    ∀ (fuel : Nat) (s : LoopState), 0 ≤ s.count → s.count.toNat < fuel →
      s.count ≤ s.originalCount → (∀ p, s.prev_count = some p → p ≤ s.originalCount) →
      (repairCalls s.trace : Int) = s.iter →
      ∃ r, fixElementShapes.loop dimension marks fuel s = some r ∧
        r.originalCount = s.originalCount ∧ s.iter ≤ r.iter ∧ r.iter ≤ s.iter + s.count ∧
        (repairCalls r.trace : Int) = r.iter ∧
        (∀ p, r.prev_count = some p → p ≤ r.originalCount) ∧
        (r.count ≤ r.originalCount ∨ ∃ p, r.prev_count = some p ∧ p ≤ r.count) := by
  intro fuel
  induction fuel with
  | zero => intro s _ h; omega
  | succ fuel ih =>
    intro s h0 hfuel hle hprev hrep
    by_cases hc : s.count = 0
    · refine ⟨s, by simp [fixElementShapes.loop, hc], rfl, le_refl _, by omega, hrep, hprev,
        Or.inl hle⟩
    · have hcnt : (fixElementShapes.body dimension marks s).count = marks (s.marked + 1) := rfl
      have hpc : (fixElementShapes.body dimension marks s).prev_count = some s.count := rfl
      have hit : (fixElementShapes.body dimension marks s).iter = s.iter + 1 := rfl
      have hoc : (fixElementShapes.body dimension marks s).originalCount = s.originalCount := rfl
      have hrc := fixElementShapes_body_repairCalls dimension marks s
      have hm := hnn (s.marked + 1)
      by_cases hlt : (fixElementShapes.body dimension marks s).count < s.count
      · obtain ⟨r, hr, h1, h2, h3, h4, h5, h6⟩ := ih (fixElementShapes.body dimension marks s)
          (by omega) (by omega) (by omega) (by rw [hpc, hoc]; intro p hp; cases hp; exact hle)
          (by rw [hrc, hit]; push_cast; omega)
        refine ⟨r, ?_, by omega, by omega, by omega, h4, h5, h6⟩
        rw [fixElementShapes.loop]
        simp only [hc, if_false, hlt, if_true]
        exact hr
      · refine ⟨fixElementShapes.body dimension marks s, ?_, hoc, by omega, by omega, ?_, ?_, ?_⟩
        · rw [fixElementShapes.loop]
          simp only [hc, if_false, hlt]
        · rw [hrc, hit]; push_cast; omega
        · rw [hpc, hoc]; intro p hp; cases hp; exact hle
        · right
          exact ⟨s.count, hpc, by omega⟩

/-- C2, amended: with `shouldFixShape` on and counts that are not negative,
`fixElementShapes` returns, the count at the start of its last iteration is at
most the initial count, and the final count is at most the initial count
unless the last iteration ended with more bad elements than it started with. -/
theorem fixElementShapes_final_count (dimension : Nat) (marks : Nat → Int) (fuel : Nat)
    (hnn : ∀ k, 0 ≤ marks k) (hfuel : (marks 0).toNat < fuel) :
    ∃ r, fixElementShapes true dimension marks fuel = some (some r) ∧
      r.originalCount = marks 0 ∧
      (∀ p, r.prev_count = some p → p ≤ r.originalCount) ∧
      (r.count ≤ r.originalCount ∨ ∃ p, r.prev_count = some p ∧ p < r.count) := by
  obtain ⟨r, hr, h1, _, _, _, h5, h6⟩ := fixElementShapes_loop_returns dimension marks hnn fuel
    { originalCount := marks 0, count := marks 0, prev_count := none, iter := 0, marked := 1,
      trace := [Event.markBadQuality (marks 0)] }
    (hnn 0) hfuel (le_refl _) (by intro p hp; cases hp) (by simp [repairCalls])
  refine ⟨r, by simp [fixElementShapes, hr], h1, h5, ?_⟩
  by_cases hle : r.count ≤ r.originalCount
  · exact Or.inl hle
  · rcases h6 with h6 | ⟨p, hp, _⟩
    · exact Or.inl h6
    · exact Or.inr ⟨p, hp, by have := h5 p hp; omega⟩

/-- C2 at a concrete input: on the counts 4, 3, 2, 1, 0, ... the run ends with
the count 0, which is not above the initial 4. -/
theorem fixElementShapes_final_count_witness :
    (∀ k, 0 ≤ settlingMarks k) ∧ (settlingMarks 0).toNat < 5 ∧
    (∃ r, fixElementShapes true 3 settlingMarks 5 = some (some r) ∧
      r.originalCount = settlingMarks 0 ∧
      (∀ p, r.prev_count = some p → p ≤ r.originalCount) ∧
      (r.count ≤ r.originalCount ∨ ∃ p, r.prev_count = some p ∧ p < r.count)) ∧
    (fixElementShapes true 3 settlingMarks 5).map (Option.map LoopState.count) =
      some (some 0) :=
  ⟨fun k => Int.ofNat_nonneg _, by decide,
    fixElementShapes_final_count 3 settlingMarks 5 (fun k => Int.ofNat_nonneg _) (by decide),
    by decide⟩

/-- C2, as stated, fails: when the calls of `markBadQuality` return 5, 6, 7,
the run makes one iteration and ends with the count 7, above the initial 5. -/
theorem fixElementShapes_count_can_rise :
    ∃ r, fixElementShapes true 3 risingMarks 6 = some (some r) ∧
      r.originalCount = 5 ∧ r.count = 7 ∧ r.iter = 1 ∧ ¬ r.count ≤ r.originalCount :=
  ⟨_, rfl, by decide⟩

/-- C3: with counts that are not negative and more fuel than the initial count,
the loop of `fixElementShapes` returns, and the number of times it ran its
repair body is `iter`, at most the initial count: 0 when the initial count is 0,
and exactly 1 when the count after the first iteration is not below the
initial count. -/
theorem fixElementShapes_iterations (dimension : Nat) (marks : Nat → Int) (fuel : Nat)
    (hnn : ∀ k, 0 ≤ marks k) (hfuel : (marks 0).toNat < fuel) :
    ∃ r, fixElementShapes true dimension marks fuel = some (some r) ∧
      (repairCalls r.trace : Int) = r.iter ∧ 0 ≤ r.iter ∧ r.iter ≤ marks 0 ∧
      (marks 0 = 0 → r.iter = 0) ∧
      (marks 0 ≠ 0 → marks 0 ≤ marks 2 → r.iter = 1) := by
  obtain ⟨r, hr, _, h2, h3, h4, _, _⟩ := fixElementShapes_loop_returns dimension marks hnn fuel
    { originalCount := marks 0, count := marks 0, prev_count := none, iter := 0, marked := 1,
      trace := [Event.markBadQuality (marks 0)] }
    (hnn 0) hfuel (le_refl _) (by intro p hp; cases hp) (by simp [repairCalls])
  simp only at h2 h3
  refine ⟨r, by simp [fixElementShapes, hr], h4, h2, by omega, by intro h; omega, ?_⟩
  intro hne hge
  obtain ⟨f, rfl⟩ : ∃ f, fuel = f + 1 := ⟨fuel - 1, by omega⟩
  have hnlt : ¬ marks 2 < marks 0 := by omega
  rw [fixElementShapes.loop] at hr
  simp [hne, fixElementShapes.body, hnlt] at hr
  rw [← hr]

/-- C3 at a concrete input: on the counts 7, 6, 5, 5, ... the run makes two
iterations. -/
theorem fixElementShapes_iterations_witness :
    (∀ k, 0 ≤ stallingMarks k) ∧ (stallingMarks 0).toNat < 8 ∧
    (∃ r, fixElementShapes true 2 stallingMarks 8 = some (some r) ∧
      (repairCalls r.trace : Int) = r.iter ∧ 0 ≤ r.iter ∧ r.iter ≤ stallingMarks 0 ∧
      (stallingMarks 0 = 0 → r.iter = 0) ∧
      (stallingMarks 0 ≠ 0 → stallingMarks 0 ≤ stallingMarks 2 → r.iter = 1)) ∧
    (fixElementShapes true 2 stallingMarks 8).map (Option.map LoopState.iter) =
      some (some 2) :=
  ⟨fun k => Int.ofNat_nonneg _, by decide,
    fixElementShapes_iterations 2 stallingMarks 8 (fun k => Int.ofNat_nonneg _) (by decide),
    by decide⟩

/-- One pass through the body of the loop of `alignElements` makes one repair
call. -/
theorem alignElements_body_repairCalls (max_iter : Int) (marks : Nat → Int) (s : LoopState) :
    repairCalls (alignElements.body max_iter marks s).trace = repairCalls s.trace + 1 := by
  unfold alignElements.body
  simp only
  split <;> simp [repairCalls_append] <;> simp [repairCalls]

/-- The loop of `alignElements`, entered with `i` below 5 and at least `5 - i`
units of fuel, returns with `i` at most 5, `i` counting the repair calls. -/
theorem alignElements_loop_returns (marks : Nat → Int) :
    ∀ (fuel : Nat) (s : LoopState), 0 ≤ s.iter → s.iter < 5 → (5 - s.iter).toNat ≤ fuel →
      (repairCalls s.trace : Int) = s.iter →
      ∃ r, alignElements.loop 5 marks fuel s = some r ∧ r.iter ≤ 5 ∧
        (repairCalls r.trace : Int) = r.iter := by
  intro fuel
  induction fuel with
  | zero => intro s _ _ h; omega
  | succ fuel ih =>
    intro s h0 h5 hfuel hrep
    by_cases hc : s.count = 0
    · exact ⟨s, by simp [alignElements.loop, hc], by omega, hrep⟩
    · have hit : (alignElements.body 5 marks s).iter = s.iter + 1 := rfl
      have hrc := alignElements_body_repairCalls 5 marks s
      by_cases hgo : (alignElements.body 5 marks s).count < s.count ∧
          (alignElements.body 5 marks s).iter < 5
      · obtain ⟨r, hr, h1, h2⟩ := ih (alignElements.body 5 marks s) (by omega) hgo.2
          (by omega) (by rw [hrc, hit]; push_cast; omega)
        refine ⟨r, ?_, h1, h2⟩
        rw [alignElements.loop]
        simp only [hc, if_false, hgo, and_self, if_true]
        exact hr
      · refine ⟨alignElements.body 5 marks s, ?_, by omega, by rw [hrc, hit]; push_cast; omega⟩
        rw [alignElements.loop]
        simp only [hc, if_false, hgo]

/-- C4: whatever the calls of `markBadQuality` return, `alignElements` with 5
units of fuel or more returns, having run the body of its loop at most 5
times; with `shouldFixShape` off it returns without entering the loop. -/
theorem alignElements_at_most_five (marks : Nat → Int) (fuel : Nat) (hfuel : 5 ≤ fuel) :
    alignElements false marks fuel = some none ∧
    ∃ r, alignElements true marks fuel = some (some r) ∧
      repairCalls r.trace ≤ 5 ∧ (repairCalls r.trace : Int) = r.iter := by
  obtain ⟨r, hr, h1, h2⟩ := alignElements_loop_returns marks fuel
    { originalCount := marks 0, count := marks 0, prev_count := none, iter := 0, marked := 1,
      trace := [Event.markBadQuality (marks 0)] }
    (le_refl _) (by norm_num) (by simp only; omega) (by simp [repairCalls])
  exact ⟨by simp [alignElements], r, by simp [alignElements, hr], by omega, h2⟩

/-- C4 at a concrete input: on the counts 100, 99, 98, ..., which fall for
ever, the run makes 5 iterations and stops. -/
theorem alignElements_at_most_five_witness :
    5 ≤ 5 ∧
    (alignElements false fallingMarks 5 = some none ∧
      ∃ r, alignElements true fallingMarks 5 = some (some r) ∧
        repairCalls r.trace ≤ 5 ∧ (repairCalls r.trace : Int) = r.iter) ∧
    (alignElements true fallingMarks 5).map (Option.map LoopState.iter) = some (some 5) :=
  ⟨le_refl 5, alignElements_at_most_five fallingMarks 5 (le_refl 5), by decide⟩

/-! ## Theorems: short edge fixer -/

/-- The second loop of `ShortEdgeFixer::shouldApply` keeps, of the pairs seen
so far, the greatest length, the least length, and the first edge of least
length. -/
theorem ShortEdgeFixer_scan_inv (rest : List (Entity × ℚ)) :
    ∀ (pre : List (Entity × ℚ)) (mx mn : ℚ) (se : Entity),
      mx ∈ pre.map Prod.snd → (∀ x ∈ pre.map Prod.snd, x ≤ mx) →
      (∀ x ∈ pre.map Prod.snd, mn ≤ x) →
      (∃ i : Nat, pre[i]? = some (se, mn) ∧
        ∀ j : Nat, j < i → ∀ q : Entity × ℚ, pre[j]? = some q → mn < q.2) →
      (ShortEdgeFixer.scan rest (mx, mn, se)).1 ∈ (pre ++ rest).map Prod.snd ∧
      (∀ x ∈ (pre ++ rest).map Prod.snd, x ≤ (ShortEdgeFixer.scan rest (mx, mn, se)).1) ∧
      (∀ x ∈ (pre ++ rest).map Prod.snd, (ShortEdgeFixer.scan rest (mx, mn, se)).2.1 ≤ x) ∧
      ∃ i : Nat, (pre ++ rest)[i]? = some ((ShortEdgeFixer.scan rest (mx, mn, se)).2.2,
            (ShortEdgeFixer.scan rest (mx, mn, se)).2.1) ∧
        ∀ j : Nat, j < i → ∀ q : Entity × ℚ, (pre ++ rest)[j]? = some q →
          (ShortEdgeFixer.scan rest (mx, mn, se)).2.1 < q.2 := by
  induction rest with
  | nil =>
    intro pre mx mn se h1 h2 h3 h4
    simp only [ShortEdgeFixer.scan, List.append_nil]
    exact ⟨h1, h2, h3, h4⟩
  | cons x rest ih =>
    intro pre mx mn se h1 h2 h3 h4
    obtain ⟨ed, li⟩ := x
    have hassoc : pre ++ (ed, li) :: rest = (pre ++ [(ed, li)]) ++ rest := by simp
    rw [hassoc]
    simp only [ShortEdgeFixer.scan]
    have hmx1 : (if li > mx then li else mx) ∈ (pre ++ [(ed, li)]).map Prod.snd := by
      rw [List.map_append, List.mem_append]
      split
      · right; simp
      · left; exact h1
    have hmx2 : ∀ x ∈ (pre ++ [(ed, li)]).map Prod.snd, x ≤ (if li > mx then li else mx) := by
      intro x hx
      rw [List.map_append, List.mem_append] at hx
      rcases hx with hx | hx
      · have := h2 x hx
        split
        · exact le_trans this (le_of_lt (by assumption))
        · exact this
      · simp at hx
        subst hx
        split
        · exact le_refl _
        · exact not_lt.mp (by assumption)
    obtain ⟨i, hi, hfirst⟩ := h4
    have hilt : i < pre.length := by
      by_contra hcon
      rw [List.getElem?_eq_none (by omega)] at hi
      cases hi
    by_cases hlt : li < mn
    · simp only [hlt, if_true]
      refine ih (pre ++ [(ed, li)]) _ li ed hmx1 hmx2 ?_ ?_
      · intro x hx
        rw [List.map_append, List.mem_append] at hx
        rcases hx with hx | hx
        · exact le_trans (le_of_lt hlt) (h3 x hx)
        · simp at hx
          exact le_of_eq hx.symm
      · refine ⟨pre.length, by simp, ?_⟩
        intro j hj q hq
        rw [List.getElem?_append_left hj] at hq
        have : q.2 ∈ pre.map Prod.snd :=
          List.mem_map_of_mem _ (List.getElem?_mem hq)
        exact lt_of_lt_of_le hlt (h3 _ this)
    · simp only [hlt, if_false]
      refine ih (pre ++ [(ed, li)]) _ mn se hmx1 hmx2 ?_ ?_
      · intro x hx
        rw [List.map_append, List.mem_append] at hx
        rcases hx with hx | hx
        · exact h3 x hx
        · simp at hx
          subst hx
          exact not_lt.mp hlt
      · refine ⟨i, by rw [List.getElem?_append_left hilt]; exact hi, ?_⟩
        intro j hj q hq
        rw [List.getElem?_append_left (by omega)] at hq
        exact hfirst j hj q hq

/-- Pairing each edge with its length. -/
theorem zip_map_measure (measure : Entity → ℚ) (l : List Entity) :
    l.zip (l.map measure) = l.map (fun x => (x, measure x)) := by
  induction l with
  | nil => rfl
  | cons a l ih => simp [ih]

/-- The claim C7 within the buffer `l[6]`: on an entity that is not flagged
`BAD_QUALITY`, `shouldApply` of the short edge fixer returns false and changes
nothing. On a flagged entity with 1 to 6 bounding edges of positive length,
with `mx` the greatest and `mn` the least of the lengths: when the quotient of
`mx` by `mn` is below `maximumEdgeRatio` it returns false, the flag of the
entity is cleared and the edge of the remover is as before; otherwise it
returns true, the flags are as before, and the remover gets the first edge, in
bounding order, whose length is `mn`. -/
theorem ShortEdgeFixer_shouldApply_ratio (m : Mesh) (measure : Entity → ℚ)
    (quotient : ℚ → ℚ → ℚ) (fs : FlagStore) (self : ShortEdgeFixer) (e : Entity) :
    (getFlag fs e Flag.BAD_QUALITY = false →
      ShortEdgeFixer.shouldApply m measure quotient fs self e = some (false, fs, self)) ∧
    (getFlag fs e Flag.BAD_QUALITY = true →
      1 ≤ (m.getDownward e 1).length → (m.getDownward e 1).length ≤ 6 →
      (∀ x ∈ m.getDownward e 1, 0 < measure x) →
      ∃ mx mn : ℚ,
        (mx ∈ (m.getDownward e 1).map measure ∧ ∀ x ∈ m.getDownward e 1, measure x ≤ mx) ∧
        (mn ∈ (m.getDownward e 1).map measure ∧ ∀ x ∈ m.getDownward e 1, mn ≤ measure x) ∧
        (quotient mx mn < self.shortEdgeRatio →
          ShortEdgeFixer.shouldApply m measure quotient fs self e =
            some (false, clearFlag fs e Flag.BAD_QUALITY, { self with element := some e })) ∧
        (self.shortEdgeRatio ≤ quotient mx mn →
          ∃ (i : Nat) (shortEdge : Entity),
            (m.getDownward e 1)[i]? = some shortEdge ∧ measure shortEdge = mn ∧
            (∀ j : Nat, j < i → ∀ x, (m.getDownward e 1)[j]? = some x → mn < measure x) ∧
            ShortEdgeFixer.shouldApply m measure quotient fs self e =
              some (true, fs,
                { self with element := some e, removerEdge := some shortEdge }))) := by
  constructor
  · intro hf
    simp [ShortEdgeFixer.shouldApply, hf]
  · intro hf h1 h6 _
    obtain ⟨e0, tl, hedges⟩ : ∃ e0 tl, m.getDownward e 1 = e0 :: tl := by
      cases h : m.getDownward e 1 with
      | nil => rw [h] at h1; simp at h1
      | cons a l => exact ⟨a, l, rfl⟩
    rw [hedges] at h6
    simp only [List.length_cons] at h6
    obtain ⟨g1, g2, g3, i, gi, gfirst⟩ := ShortEdgeFixer_scan_inv (tl.zip (tl.map measure))
      [(e0, measure e0)] (measure e0) (measure e0) e0 (by simp) (by simp) (by simp)
      ⟨0, by simp, by intro j hj; omega⟩
    have hP : [(e0, measure e0)] ++ tl.zip (tl.map measure) =
        (e0 :: tl).map (fun x => (x, measure x)) := by
      simp [zip_map_measure]
    rw [hP] at g1 g2 g3 gi gfirst
    rw [List.map_map] at g1 g2 g3
    have hcomp : (Prod.snd ∘ fun x : Entity => (x, measure x)) = measure := rfl
    rw [hcomp] at g1 g2 g3
    rw [hedges]
    refine ⟨_, _, ⟨g1, fun x hx => g2 _ (List.mem_map_of_mem _ hx)⟩,
      ⟨?_, fun x hx => g3 _ (List.mem_map_of_mem _ hx)⟩, ?_, ?_⟩
    · rw [List.getElem?_map] at gi
      cases hq : (e0 :: tl)[i]? with
      | none => rw [hq] at gi; cases gi
      | some q =>
        rw [hq] at gi
        simp only [Option.map_some', Option.some.injEq, Prod.mk.injEq] at gi
        rw [← gi.2]
        exact List.mem_map_of_mem _ (List.getElem?_mem hq)
    · intro hlt
      simp [ShortEdgeFixer.shouldApply, hf, hedges, hlt]
      omega
    · intro hge
      have hnlt := not_lt.mpr hge
      rw [List.getElem?_map] at gi
      cases hq : (e0 :: tl)[i]? with
      | none => rw [hq] at gi; cases gi
      | some q =>
        rw [hq] at gi
        simp only [Option.map_some', Option.some.injEq, Prod.mk.injEq] at gi
        refine ⟨i, q, hq, gi.2, ?_, ?_⟩
        · intro j hj x hx
          exact gfirst j hj (x, measure x) (by rw [List.getElem?_map, hx]; rfl)
        · simp [ShortEdgeFixer.shouldApply, hf, hedges, hnlt, gi.1]
          omega

/-- The two scenarios of the specification, for `maximumEdgeRatio = 3` and a
flagged tetrahedron: with the lengths [1,1,1,1,1,10] the fixer returns true,
hands edge 0 (the handle 11) to the remover and leaves the flag set; with the
lengths [1,1,1,1,1,2] it returns false, clears the flag and selects no edge. -/
theorem ShortEdgeFixer_shouldApply_ratio_witness :
    (getFlag onlyOneBad 1 Flag.BAD_QUALITY = true ∧
      1 ≤ (oneTetMesh.getDownward 1 1).length ∧ (oneTetMesh.getDownward 1 1).length ≤ 6 ∧
      ∀ x ∈ oneTetMesh.getDownward 1 1, 0 < lengthsUpTo10 x) ∧
    (∃ mx mn : ℚ,
      (mx ∈ (oneTetMesh.getDownward 1 1).map lengthsUpTo10 ∧
        ∀ x ∈ oneTetMesh.getDownward 1 1, lengthsUpTo10 x ≤ mx) ∧
      (mn ∈ (oneTetMesh.getDownward 1 1).map lengthsUpTo10 ∧
        ∀ x ∈ oneTetMesh.getDownward 1 1, mn ≤ lengthsUpTo10 x) ∧
      (exactQuotient mx mn < freshShortEdgeFixer.shortEdgeRatio →
        ShortEdgeFixer.shouldApply oneTetMesh lengthsUpTo10 exactQuotient onlyOneBad
            freshShortEdgeFixer 1 =
          some (false, clearFlag onlyOneBad 1 Flag.BAD_QUALITY,
            { freshShortEdgeFixer with element := some 1 })) ∧
      (freshShortEdgeFixer.shortEdgeRatio ≤ exactQuotient mx mn →
        ∃ (i : Nat) (shortEdge : Entity),
          (oneTetMesh.getDownward 1 1)[i]? = some shortEdge ∧ lengthsUpTo10 shortEdge = mn ∧
          (∀ j : Nat, j < i → ∀ x, (oneTetMesh.getDownward 1 1)[j]? = some x →
            mn < lengthsUpTo10 x) ∧
          ShortEdgeFixer.shouldApply oneTetMesh lengthsUpTo10 exactQuotient onlyOneBad
              freshShortEdgeFixer 1 =
            some (true, onlyOneBad,
              { freshShortEdgeFixer with element := some 1, removerEdge := some shortEdge }))) ∧
    (ShortEdgeFixer.shouldApply oneTetMesh lengthsUpTo10 exactQuotient onlyOneBad
        freshShortEdgeFixer 1).map
        (fun r => (r.1, r.2.2.removerEdge, getFlag r.2.1 1 Flag.BAD_QUALITY)) =
      some (true, some 11, true) ∧
    (ShortEdgeFixer.shouldApply oneTetMesh lengthsUpTo2 exactQuotient onlyOneBad
        freshShortEdgeFixer 1).map
        (fun r => (r.1, r.2.2.removerEdge, getFlag r.2.1 1 Flag.BAD_QUALITY)) =
      some (false, none, false) := by
  have hf : getFlag onlyOneBad 1 Flag.BAD_QUALITY = true := by decide
  have h1 : 1 ≤ (oneTetMesh.getDownward 1 1).length := by decide
  have h6 : (oneTetMesh.getDownward 1 1).length ≤ 6 := by decide
  have hpos : ∀ x ∈ oneTetMesh.getDownward 1 1, 0 < lengthsUpTo10 x := by
    intro x hx
    unfold lengthsUpTo10
    split <;> norm_num
  refine ⟨⟨hf, h1, h6, hpos⟩,
    (ShortEdgeFixer_shouldApply_ratio oneTetMesh lengthsUpTo10 exactQuotient onlyOneBad
      freshShortEdgeFixer 1).2
      hf h1 h6 hpos, ?_, ?_⟩
  · norm_num [ShortEdgeFixer.shouldApply, ShortEdgeFixer.scan, oneTetMesh, lengthsUpTo10,
      exactQuotient, onlyOneBad, freshShortEdgeFixer, getFlag]
  · norm_num [ShortEdgeFixer.shouldApply, ShortEdgeFixer.scan, oneTetMesh, lengthsUpTo2,
      exactQuotient, onlyOneBad, freshShortEdgeFixer, getFlag, clearFlag]

/-- On a flagged triangle with the bounding edges `e0`, `e1`, `e2`, one of
whose three cosines is below the start value 1 of `minCos`, `shouldApply` of
the triangle fixer returns true and leaves in `edge` the edge `e((i+2) mod 3)`,
`i` being the first index at which the cosine between `e(i)` and
`e((i+1) mod 3)` is the least of the three. -/
theorem LargeAngleTriFixer_shouldApply_edge_of_lt_one (m : Mesh) (g : TriGeometry) (fs : FlagStore)
    (self : LargeAngleTriFixer) (e e0 e1 e2 : Entity)
    (hf : getFlag fs e Flag.BAD_QUALITY = true) (hedges : m.getDownward e 1 = [e0, e1, e2])
    (hlt : ∃ i : Fin 3,
      g.computeCosAngle e (![e0, e1, e2] i) (![e0, e1, e2] (i + 1)) (g.getTransform e) < 1) :
    ∃ i : Fin 3,
      (∀ j : Fin 3,
        g.computeCosAngle e (![e0, e1, e2] i) (![e0, e1, e2] (i + 1)) (g.getTransform e) ≤
          g.computeCosAngle e (![e0, e1, e2] j) (![e0, e1, e2] (j + 1)) (g.getTransform e)) ∧
      (∀ j : Fin 3, j < i →
        g.computeCosAngle e (![e0, e1, e2] i) (![e0, e1, e2] (i + 1)) (g.getTransform e) <
          g.computeCosAngle e (![e0, e1, e2] j) (![e0, e1, e2] (j + 1)) (g.getTransform e)) ∧
      LargeAngleTriFixer.shouldApply m g fs self e =
        some (true, { self with tri := some e, edge := some (![e0, e1, e2] (i + 2)) }) := by
  obtain ⟨k, hk⟩ := hlt
  simp only [LargeAngleTriFixer.shouldApply, hf, hedges, LargeAngleTriFixer.scan]
  have hk3 : g.computeCosAngle e e0 e1 (g.getTransform e) < 1 ∨
      g.computeCosAngle e e1 e2 (g.getTransform e) < 1 ∨
      g.computeCosAngle e e2 e0 (g.getTransform e) < 1 := by
    fin_cases k
    · exact Or.inl hk
    · exact Or.inr (Or.inl hk)
    · exact Or.inr (Or.inr hk)
  have hi0 : (![e0, e1, e2] : Fin 3 → Entity) (Fin.ofNat (0 % 3)) = e0 := rfl
  have hi1 : (![e0, e1, e2] : Fin 3 → Entity) (Fin.ofNat ((0 + 1) % 3)) = e1 := rfl
  have hi2 : (![e0, e1, e2] : Fin 3 → Entity) (Fin.ofNat ((0 + 2) % 3)) = e2 := rfl
  have hi3 : (![e0, e1, e2] : Fin 3 → Entity) (Fin.ofNat ((0 + 1 + 1) % 3)) = e2 := rfl
  have hi4 : (![e0, e1, e2] : Fin 3 → Entity) (Fin.ofNat ((0 + 1 + 2) % 3)) = e0 := rfl
  have hi5 : (![e0, e1, e2] : Fin 3 → Entity) (Fin.ofNat ((0 + 1 + 1 + 1) % 3)) = e0 := rfl
  have hi6 : (![e0, e1, e2] : Fin 3 → Entity) (Fin.ofNat ((0 + 1 + 1 + 2) % 3)) = e1 := rfl
  simp only [hi0, hi1, hi2, hi3, hi4, hi5, hi6]
  by_cases h0 : g.computeCosAngle e e0 e1 (g.getTransform e) < 1
  · by_cases h1 : g.computeCosAngle e e1 e2 (g.getTransform e) <
        g.computeCosAngle e e0 e1 (g.getTransform e)
    · by_cases h2 : g.computeCosAngle e e2 e0 (g.getTransform e) <
          g.computeCosAngle e e1 e2 (g.getTransform e)
      · refine ⟨2, ?_, ?_, by simp [h0, h1, h2]⟩
        · intro j; fin_cases j <;> simp <;> linarith
        · intro j hj; fin_cases j <;> simp at hj ⊢ <;> linarith
      · refine ⟨1, ?_, ?_, by simp [h0, h1, h2]⟩
        · intro j; fin_cases j <;> simp <;> linarith
        · intro j hj
          fin_cases j <;> simp at hj ⊢
          linarith
    · by_cases h2 : g.computeCosAngle e e2 e0 (g.getTransform e) <
          g.computeCosAngle e e0 e1 (g.getTransform e)
      · refine ⟨2, ?_, ?_, by simp [h0, h1, h2]⟩
        · intro j; fin_cases j <;> simp <;> linarith
        · intro j hj; fin_cases j <;> simp at hj ⊢ <;> linarith
      · refine ⟨0, ?_, ?_, by simp [h0, h1, h2]⟩
        · intro j; fin_cases j <;> simp <;> linarith
        · intro j hj; fin_cases j <;> simp at hj
  · by_cases h1 : g.computeCosAngle e e1 e2 (g.getTransform e) < 1
    · by_cases h2 : g.computeCosAngle e e2 e0 (g.getTransform e) <
          g.computeCosAngle e e1 e2 (g.getTransform e)
      · refine ⟨2, ?_, ?_, by simp [h0, h1, h2]⟩
        · intro j; fin_cases j <;> simp <;> linarith
        · intro j hj; fin_cases j <;> simp at hj ⊢ <;> linarith
      · refine ⟨1, ?_, ?_, by simp [h0, h1, h2]⟩
        · intro j; fin_cases j <;> simp <;> linarith
        · intro j hj
          fin_cases j <;> simp at hj ⊢
          linarith
    · have h2 : g.computeCosAngle e e2 e0 (g.getTransform e) < 1 := by
        rcases hk3 with h | h | h
        · exact absurd h h0
        · exact absurd h h1
        · exact h
      refine ⟨2, ?_, ?_, by simp [h0, h1, h2]⟩
      · intro j; fin_cases j <;> simp <;> linarith
      · intro j hj; fin_cases j <;> simp at hj ⊢ <;> linarith

/-- Of three angles that are not negative and add up to `π`, one has a cosine
of at most 1/2. -/
theorem exists_cos_le_half (α : Fin 3 → ℝ) (hnn : ∀ i, 0 ≤ α i)
    (hsum : α 0 + α 1 + α 2 = Real.pi) : ∃ k, Real.cos (α k) ≤ 1 / 2 := by
  have h0 := hnn 0
  have h1 := hnn 1
  have h2 := hnn 2
  have hpi := Real.pi_pos
  have hbig : ∃ k, Real.pi / 3 ≤ α k := by
    by_contra hcon
    push_neg at hcon
    have c0 := hcon 0
    have c1 := hcon 1
    have c2 := hcon 2
    linarith
  obtain ⟨k, hk⟩ := hbig
  have hle : α k ≤ Real.pi := by
    fin_cases k
    · show α 0 ≤ Real.pi
      linarith
    · show α 1 ≤ Real.pi
      linarith
    · show α 2 ≤ Real.pi
      linarith
  refine ⟨k, ?_⟩
  rw [← Real.cos_pi_div_three]
  exact Real.cos_le_cos_of_nonneg_of_le_pi (by linarith) hle hk

/-- C9: on a flagged triangle with the bounding edges `e0`, `e1`, `e2`, whose
three cosines `c(i)`, between `e(i)` and `e((i+1) mod 3)`, are the cosines of
the angles of a triangle (angles that are not negative and add up to `π`), each
up to an error below 1/2, which covers the rounding of the computed value,
`shouldApply` of the triangle fixer returns true and leaves in `edge` the edge
`e((i+2) mod 3)` for the first index `i` at which `c(i)` is the least of the
three, whatever edge an earlier call has left there. -/
theorem LargeAngleTriFixer_shouldApply_edge (m : Mesh) (g : TriGeometry) (fs : FlagStore)
    (self : LargeAngleTriFixer) (e e0 e1 e2 : Entity)
    (hf : getFlag fs e Flag.BAD_QUALITY = true) (hedges : m.getDownward e 1 = [e0, e1, e2])
    (hcos : ∃ α : Fin 3 → ℝ, (∀ i, 0 ≤ α i) ∧ α 0 + α 1 + α 2 = Real.pi ∧
      ∀ i : Fin 3,
        |((g.computeCosAngle e (![e0, e1, e2] i) (![e0, e1, e2] (i + 1))
            (g.getTransform e) : ℚ) : ℝ) - Real.cos (α i)| < 1 / 2) :
    ∃ i : Fin 3,
      (∀ j : Fin 3,
        g.computeCosAngle e (![e0, e1, e2] i) (![e0, e1, e2] (i + 1)) (g.getTransform e) ≤
          g.computeCosAngle e (![e0, e1, e2] j) (![e0, e1, e2] (j + 1)) (g.getTransform e)) ∧
      (∀ j : Fin 3, j < i →
        g.computeCosAngle e (![e0, e1, e2] i) (![e0, e1, e2] (i + 1)) (g.getTransform e) <
          g.computeCosAngle e (![e0, e1, e2] j) (![e0, e1, e2] (j + 1)) (g.getTransform e)) ∧
      LargeAngleTriFixer.shouldApply m g fs self e =
        some (true, { self with tri := some e, edge := some (![e0, e1, e2] (i + 2)) }) := by
  obtain ⟨α, hnn, hsum, herr⟩ := hcos
  obtain ⟨k, hk⟩ := exists_cos_le_half α hnn hsum
  have hlt : ∃ i : Fin 3,
      g.computeCosAngle e (![e0, e1, e2] i) (![e0, e1, e2] (i + 1)) (g.getTransform e) < 1 := by
    refine ⟨k, ?_⟩
    have h := (abs_lt.mp (herr k)).2
    have hr : ((g.computeCosAngle e (![e0, e1, e2] k) (![e0, e1, e2] (k + 1))
        (g.getTransform e) : ℚ) : ℝ) < 1 := by linarith
    exact_mod_cast hr
  exact LargeAngleTriFixer_shouldApply_edge_of_lt_one m g fs self e e0 e1 e2 hf hedges hlt

/-- C9 at a concrete input: on the triangle 7, whose three cosines are 1/2 (the
angles are `π/3`), a fixer that holds the edge 23 of the triangle 8 from an
earlier call selects the edge 13 of the triangle 7. -/
theorem LargeAngleTriFixer_shouldApply_edge_witness :
    (getFlag bothBad 7 Flag.BAD_QUALITY = true ∧
      twoTriangleMesh.getDownward 7 1 = [11, 12, 13] ∧
      ∃ α : Fin 3 → ℝ, (∀ i, 0 ≤ α i) ∧ α 0 + α 1 + α 2 = Real.pi ∧
        ∀ i : Fin 3,
          |((equilateralGeometry.computeCosAngle 7 (![11, 12, 13] i) (![11, 12, 13] (i + 1))
              (equilateralGeometry.getTransform 7) : ℚ) : ℝ) - Real.cos (α i)| < 1 / 2) ∧
    (∃ i : Fin 3,
      (∀ j : Fin 3,
        equilateralGeometry.computeCosAngle 7 (![11, 12, 13] i) (![11, 12, 13] (i + 1))
            (equilateralGeometry.getTransform 7) ≤
          equilateralGeometry.computeCosAngle 7 (![11, 12, 13] j) (![11, 12, 13] (j + 1))
            (equilateralGeometry.getTransform 7)) ∧
      (∀ j : Fin 3, j < i →
        equilateralGeometry.computeCosAngle 7 (![11, 12, 13] i) (![11, 12, 13] (i + 1))
            (equilateralGeometry.getTransform 7) <
          equilateralGeometry.computeCosAngle 7 (![11, 12, 13] j) (![11, 12, 13] (j + 1))
            (equilateralGeometry.getTransform 7)) ∧
      LargeAngleTriFixer.shouldApply twoTriangleMesh equilateralGeometry bothBad
          { LargeAngleTriFixer.new with tri := some 8, edge := some 23 } 7 =
        some (true, { LargeAngleTriFixer.new with
          tri := some 7, edge := some (![11, 12, 13] (i + 2)) })) ∧
    LargeAngleTriFixer.shouldApply twoTriangleMesh equilateralGeometry bothBad
        { LargeAngleTriFixer.new with tri := some 8, edge := some 23 } 7 =
      some (true, { LargeAngleTriFixer.new with tri := some 7, edge := some 13 }) := by
  have hf : getFlag bothBad 7 Flag.BAD_QUALITY = true := by decide
  have hedges : twoTriangleMesh.getDownward 7 1 = [11, 12, 13] := by decide
  have hcos : ∃ α : Fin 3 → ℝ, (∀ i, 0 ≤ α i) ∧ α 0 + α 1 + α 2 = Real.pi ∧
      ∀ i : Fin 3,
        |((equilateralGeometry.computeCosAngle 7 (![11, 12, 13] i) (![11, 12, 13] (i + 1))
            (equilateralGeometry.getTransform 7) : ℚ) : ℝ) - Real.cos (α i)| < 1 / 2 := by
    refine ⟨fun _ => Real.pi / 3, fun _ => by positivity, by ring, fun i => ?_⟩
    simp only [equilateralGeometry, Real.cos_pi_div_three]
    norm_num
  refine ⟨⟨hf, hedges, hcos⟩,
    LargeAngleTriFixer_shouldApply_edge twoTriangleMesh equilateralGeometry bothBad
      { LargeAngleTriFixer.new with tri := some 8, edge := some 23 } 7 11 12 13 hf hedges hcos,
    ?_⟩
  norm_num [LargeAngleTriFixer.shouldApply, LargeAngleTriFixer.scan, twoTriangleMesh,
    equilateralGeometry, bothBad, getFlag, LargeAngleTriFixer.new, Fin.ofNat]

/-! ## Theorems: operator adapters -/

/-- C11: for each of the four adapters, after a `shouldApply` that returned
true on the entity `e`, `apply` leaves the flag store as it was when the
attempt of its strategy succeeded, and clears `BAD_QUALITY` of `e`, and nothing
else, when the attempt failed; so afterwards the flag of `e` is clear exactly
when the attempt failed. The attempt is `fixer->run()` for the two tetrahedron
adapters, `edgeSwap->run(edge)` for the triangle fixer and `remover.run()` for
the short edge fixer. -/
theorem apply_clears_flag_iff_failed :
    (∀ (g : SliverGeometry) (o : Outcomes) (fs fs1 : FlagStore)
        (self self1 : LargeAngleTetFixer) (e : Entity),
      LargeAngleTetFixer.shouldApply g fs self e = some (true, fs1, self1) →
      ∃ ok self2 log fs2,
        LargeAngleTetFixer.run o self1 = some (ok, self2, log) ∧
        LargeAngleTetFixer.apply o fs1 self1 = some (fs2, self2, log) ∧
        (ok = true → fs2 = fs1) ∧
        (ok = false → fs2 = clearFlag fs1 e Flag.BAD_QUALITY) ∧
        (getFlag fs2 e Flag.BAD_QUALITY = false ↔ ok = false)) ∧
    (∀ (g : SliverGeometry) (o : Outcomes) (fs fs1 : FlagStore)
        (self self1 : LargeAngleTetAligner) (e : Entity),
      LargeAngleTetAligner.shouldApply g fs self e = some (true, fs1, self1) →
      ∃ fs2,
        LargeAngleTetAligner.apply o fs1 self1 =
          some (fs2, { self1 with fixer := (FixBySwap.run o self1.fixer).2.1 },
            (FixBySwap.run o self1.fixer).2.2) ∧
        ((FixBySwap.run o self1.fixer).1 = true → fs2 = fs1) ∧
        ((FixBySwap.run o self1.fixer).1 = false → fs2 = clearFlag fs1 e Flag.BAD_QUALITY) ∧
        (getFlag fs2 e Flag.BAD_QUALITY = false ↔ (FixBySwap.run o self1.fixer).1 = false)) ∧
    (∀ (m : Mesh) (g : TriGeometry) (swapped : Bool) (fs : FlagStore)
        (self self1 : LargeAngleTriFixer) (e : Entity),
      LargeAngleTriFixer.shouldApply m g fs self e = some (true, self1) →
      ∃ fs2 self2,
        LargeAngleTriFixer.apply swapped fs self1 = some (fs2, self2) ∧
        (swapped = true → fs2 = fs) ∧
        (swapped = false → fs2 = clearFlag fs e Flag.BAD_QUALITY) ∧
        (getFlag fs2 e Flag.BAD_QUALITY = false ↔ swapped = false)) ∧
    (∀ (m : Mesh) (measure : Entity → ℚ) (quotient : ℚ → ℚ → ℚ) (removed : Bool)
        (fs fs1 : FlagStore) (self self1 : ShortEdgeFixer) (e : Entity),
      ShortEdgeFixer.shouldApply m measure quotient fs self e = some (true, fs1, self1) →
      ∃ fs2 self2,
        ShortEdgeFixer.apply removed fs1 self1 = some (fs2, self2) ∧
        (removed = true → fs2 = fs1) ∧
        (removed = false → fs2 = clearFlag fs1 e Flag.BAD_QUALITY) ∧
        (getFlag fs2 e Flag.BAD_QUALITY = false ↔ removed = false)) := by
  refine ⟨?_, ?_, ?_, ?_⟩
  · intro g o fs fs1 self self1 e h
    unfold LargeAngleTetFixer.shouldApply at h
    by_cases hf : getFlag fs e Flag.BAD_QUALITY = false
    · simp [hf] at h
    · have hft : fs e Flag.BAD_QUALITY = true := by simpa [getFlag] using hf
      rw [if_neg hf] at h
      cases hm : matchSliver g e with
      | none => simp [hm] at h
      | some mt =>
        cases hk : LargeAngleTetFixer.selectFixer mt with
        | none => simp [hm, hk] at h
        | some kind =>
          simp only [hm, hk, Option.some.injEq, Prod.mk.injEq, true_and] at h
          obtain ⟨rfl, rfl⟩ := h
          cases kind with
          | edgeEdgeFixer =>
            refine ⟨(EdgeEdgeFixer.run o self.edgeEdgeFixer).1,
              { self with tet := some e, fixer := some TetFixerKind.edgeEdgeFixer,
                          edgeEdgeFixer := (EdgeEdgeFixer.run o self.edgeEdgeFixer).2.1 },
              (EdgeEdgeFixer.run o self.edgeEdgeFixer).2.2,
              if (EdgeEdgeFixer.run o self.edgeEdgeFixer).1 = true then fs
              else clearFlag fs e Flag.BAD_QUALITY, rfl, ?_, ?_, ?_, ?_⟩ <;>
            cases hr : (EdgeEdgeFixer.run o self.edgeEdgeFixer).1 <;>
              simp [LargeAngleTetFixer.run, LargeAngleTetFixer.apply, hr, hft, getFlag, clearFlag]
          | faceVertFixer =>
            refine ⟨(FaceVertFixer.run o self.faceVertFixer).1,
              { self with tet := some e, fixer := some TetFixerKind.faceVertFixer,
                          faceVertFixer := (FaceVertFixer.run o self.faceVertFixer).2.1 },
              (FaceVertFixer.run o self.faceVertFixer).2.2,
              if (FaceVertFixer.run o self.faceVertFixer).1 = true then fs
              else clearFlag fs e Flag.BAD_QUALITY, rfl, ?_, ?_, ?_, ?_⟩ <;>
            cases hr : (FaceVertFixer.run o self.faceVertFixer).1 <;>
              simp [LargeAngleTetFixer.run, LargeAngleTetFixer.apply, hr, hft, getFlag, clearFlag]
  · intro g o fs fs1 self self1 e h
    unfold LargeAngleTetAligner.shouldApply at h
    by_cases hf : getFlag fs e Flag.BAD_QUALITY = false
    · simp [hf] at h
    · have hft : fs e Flag.BAD_QUALITY = true := by simpa [getFlag] using hf
      rw [if_neg hf] at h
      cases hm : matchSliver g e with
      | none => simp [hm] at h
      | some mt =>
        simp only [hm] at h
        by_cases hee : mt.code_index = EDGE_EDGE
        · simp [hee] at h
        · simp only [hee, if_false] at h
          cases hs : FixBySwap.setTet g self.fixer e with
          | none => simp [hs] at h
          | some fx =>
            simp only [hs, Option.some.injEq, Prod.mk.injEq, true_and] at h
            obtain ⟨rfl, rfl⟩ := h
            cases hr : (FixBySwap.run o fx).1 <;>
              simp [LargeAngleTetAligner.apply, hr, hft, getFlag, clearFlag]
  · intro m g swapped fs self self1 e h
    unfold LargeAngleTriFixer.shouldApply at h
    by_cases hf : getFlag fs e Flag.BAD_QUALITY = false
    · simp [hf] at h
    · have hft : fs e Flag.BAD_QUALITY = true := by simpa [getFlag] using hf
      rw [if_neg hf] at h
      split at h
      · simp only [Option.some.injEq, Prod.mk.injEq, true_and] at h
        subst h
        cases swapped <;> simp [LargeAngleTriFixer.apply, hft, getFlag, clearFlag]
      · cases h
  · intro m measure quotient removed fs fs1 self self1 e h
    unfold ShortEdgeFixer.shouldApply at h
    by_cases hf : getFlag fs e Flag.BAD_QUALITY = false
    · simp [hf] at h
    · have hft : fs e Flag.BAD_QUALITY = true := by simpa [getFlag] using hf
      rw [if_neg hf] at h
      dsimp only at h
      split at h
      · cases h
      · split at h
        · cases h
        · split at h
          · simp at h
          · simp only [Option.some.injEq, Prod.mk.injEq, true_and] at h
            obtain ⟨rfl, rfl⟩ := h
            cases removed <;> simp [ShortEdgeFixer.apply, hft, getFlag, clearFlag]

/-- C11 at concrete inputs, one for each adapter: a flagged tetrahedron of
sliver code 7 for the two tetrahedron adapters, with operators that all fail;
the triangle 8 of cosines 0, 3/5, 4/5 with a swap that fails; the tetrahedron
of edge lengths [1,1,1,1,1,10] with a removal that succeeds. -/
theorem apply_clears_flag_iff_failed_witness :
    (LargeAngleTetFixer.shouldApply faceVertGeometry onlyOneBad freshTetFixer 1 =
        some (true, onlyOneBad,
          { freshTetFixer with tet := some 1, fixer := some TetFixerKind.faceVertFixer }) ∧
      ∃ ok self2 log fs2,
        LargeAngleTetFixer.run allFail
          { freshTetFixer with tet := some 1, fixer := some TetFixerKind.faceVertFixer } =
            some (ok, self2, log) ∧
        LargeAngleTetFixer.apply allFail onlyOneBad
          { freshTetFixer with tet := some 1, fixer := some TetFixerKind.faceVertFixer } =
            some (fs2, self2, log) ∧
        (ok = true → fs2 = onlyOneBad) ∧
        (ok = false → fs2 = clearFlag onlyOneBad 1 Flag.BAD_QUALITY) ∧
        (getFlag fs2 1 Flag.BAD_QUALITY = false ↔ ok = false)) ∧
    (LargeAngleTetAligner.shouldApply faceVertGeometry onlyOneBad freshTetAligner 1 =
        some (true, onlyOneBad, { tet := some 1, fixer := { numToTry := 3, nes := 0, nf := 0 } }) ∧
      ∃ fs2,
        LargeAngleTetAligner.apply allFail onlyOneBad
            { tet := some 1, fixer := { numToTry := 3, nes := 0, nf := 0 } } =
          some (fs2,
            { tet := some 1,
              fixer := (FixBySwap.run allFail { numToTry := 3, nes := 0, nf := 0 }).2.1 },
            (FixBySwap.run allFail { numToTry := 3, nes := 0, nf := 0 }).2.2) ∧
        ((FixBySwap.run allFail { numToTry := 3, nes := 0, nf := 0 }).1 = true →
          fs2 = onlyOneBad) ∧
        ((FixBySwap.run allFail { numToTry := 3, nes := 0, nf := 0 }).1 = false →
          fs2 = clearFlag onlyOneBad 1 Flag.BAD_QUALITY) ∧
        (getFlag fs2 1 Flag.BAD_QUALITY = false ↔
          (FixBySwap.run allFail { numToTry := 3, nes := 0, nf := 0 }).1 = false)) ∧
    (LargeAngleTriFixer.shouldApply twoTriangleMesh flatGeometry bothBad
          LargeAngleTriFixer.new 8 =
        some (true, { LargeAngleTriFixer.new with tri := some 8, edge := some 23 }) ∧
      ∃ fs2 self2,
        LargeAngleTriFixer.apply false bothBad
            { LargeAngleTriFixer.new with tri := some 8, edge := some 23 } = some (fs2, self2) ∧
        (false = true → fs2 = bothBad) ∧
        (false = false → fs2 = clearFlag bothBad 8 Flag.BAD_QUALITY) ∧
        (getFlag fs2 8 Flag.BAD_QUALITY = false ↔ false = false)) ∧
    (ShortEdgeFixer.shouldApply oneTetMesh lengthsUpTo10 exactQuotient onlyOneBad
        freshShortEdgeFixer 1 =
        some (true, onlyOneBad,
          { freshShortEdgeFixer with element := some 1, removerEdge := some 11 }) ∧
      ∃ fs2 self2,
        ShortEdgeFixer.apply true onlyOneBad
            { freshShortEdgeFixer with element := some 1, removerEdge := some 11 } =
          some (fs2, self2) ∧
        (true = true → fs2 = onlyOneBad) ∧
        (true = false → fs2 = clearFlag onlyOneBad 1 Flag.BAD_QUALITY) ∧
        (getFlag fs2 1 Flag.BAD_QUALITY = false ↔ true = false)) := by
  have hcode : getSliverCode faceVertGeometry 1 = some 7 := getSliverCode_faceVertGeometry
  have h1 : LargeAngleTetFixer.shouldApply faceVertGeometry onlyOneBad freshTetFixer 1 =
      some (true, onlyOneBad,
        { freshTetFixer with tet := some 1, fixer := some TetFixerKind.faceVertFixer }) := by
    simp [LargeAngleTetFixer.shouldApply, getFlag, onlyOneBad, matchSliver, hcode,
      matchSliverCode, matchSliverTable, LargeAngleTetFixer.selectFixer, EDGE_EDGE, FACE_VERT]
  have h2 : LargeAngleTetAligner.shouldApply faceVertGeometry onlyOneBad freshTetAligner 1 =
      some (true, onlyOneBad,
        { tet := some 1, fixer := { numToTry := 3, nes := 0, nf := 0 } }) := by
    simp [LargeAngleTetAligner.shouldApply, FixBySwap.setTet, freshTetAligner, getFlag,
      onlyOneBad, matchSliver, hcode, matchSliverCode, matchSliverTable, EDGE_EDGE, FACE_VERT]
  have h3 : LargeAngleTriFixer.shouldApply twoTriangleMesh flatGeometry bothBad
      LargeAngleTriFixer.new 8 =
        some (true, { LargeAngleTriFixer.new with tri := some 8, edge := some 23 }) := by
    norm_num [LargeAngleTriFixer.shouldApply, LargeAngleTriFixer.scan, twoTriangleMesh,
      flatGeometry, bothBad, getFlag, LargeAngleTriFixer.new, Fin.ofNat]
  have h4 : ShortEdgeFixer.shouldApply oneTetMesh lengthsUpTo10 exactQuotient onlyOneBad
      freshShortEdgeFixer 1 =
        some (true, onlyOneBad,
          { freshShortEdgeFixer with element := some 1, removerEdge := some 11 }) := by
    norm_num [ShortEdgeFixer.shouldApply, ShortEdgeFixer.scan, oneTetMesh, lengthsUpTo10,
      exactQuotient, onlyOneBad, freshShortEdgeFixer, getFlag]
  exact ⟨⟨h1, apply_clears_flag_iff_failed.1 faceVertGeometry allFail _ _ _ _ 1 h1⟩,
    ⟨h2, apply_clears_flag_iff_failed.2.1 faceVertGeometry allFail _ _ _ _ 1 h2⟩,
    ⟨h3, apply_clears_flag_iff_failed.2.2.1 twoTriangleMesh flatGeometry false _ _ _ 8 h3⟩,
    ⟨h4, apply_clears_flag_iff_failed.2.2.2 oneTetMesh lengthsUpTo10 exactQuotient true _ _ _ _ 1
      h4⟩⟩

/-! ## Theorems: calls of the shape correction loop -/

/-- The calls of one pass through the body of the loop of `fixElementShapes`. -/
theorem fixElementShapes_body_trace (dimension : Nat) (marks : Nat → Int) (s : LoopState) :
    (fixElementShapes.body dimension marks s).trace =
      s.trace ++ ([Event.fixLargeAngles] ++ (if dimension = 3 then [Event.snap] else []) ++
        [Event.markBadQuality (marks s.marked), Event.fixShortEdgeElements,
          Event.markBadQuality (marks (s.marked + 1))]) ++
        (if s.count ≤ marks (s.marked + 1) then [Event.unMarkBadQuality] else []) ++
        [Event.midBalance] := by
  unfold fixElementShapes.body
  simp only [ge_iff_le]
  split <;> split <;> simp

/-- A run of the loop of `fixElementShapes` entered in a state that no
stagnation produced: `midBalance` is called once in each iteration, and
`unMarkBadQuality` is called exactly when the run ends in an iteration that did
not lower the count, as the call before the last. -/
theorem fixElementShapes_loop_trace (dimension : Nat) (marks : Nat → Int) :
    ∀ (fuel : Nat) (s r : LoopState), fixElementShapes.loop dimension marks fuel s = some r →
      Event.unMarkBadQuality ∉ s.trace →
      (s.trace.count Event.midBalance : Int) = s.iter →
      (repairCalls s.trace : Int) = s.iter →
      (∀ p, s.prev_count = some p → s.count < p) →
      (r.trace.count Event.midBalance : Int) = r.iter ∧
      (repairCalls r.trace : Int) = r.iter ∧
      (Event.unMarkBadQuality ∈ r.trace ↔ ∃ p, r.prev_count = some p ∧ p ≤ r.count) ∧
      (Event.unMarkBadQuality ∈ r.trace →
        ∃ pre, r.trace = pre ++ [Event.unMarkBadQuality, Event.midBalance] ∧
          Event.unMarkBadQuality ∉ pre) := by
  intro fuel
  induction fuel with
  | zero => intro s r h; simp [fixElementShapes.loop] at h
  | succ fuel ih =>
    intro s r h hun hbal hrep hprev
    rw [fixElementShapes.loop] at h
    by_cases hc : s.count = 0
    · simp only [hc, if_true, Option.some.injEq] at h
      subst h
      refine ⟨hbal, hrep, ⟨fun hin => absurd hin hun, ?_⟩, fun hin => absurd hin hun⟩
      rintro ⟨p, hp, hle⟩
      have := hprev p hp
      omega
    · simp only [hc, if_false] at h
      have hcnt : (fixElementShapes.body dimension marks s).count = marks (s.marked + 1) := rfl
      have hpc : (fixElementShapes.body dimension marks s).prev_count = some s.count := rfl
      have hit : (fixElementShapes.body dimension marks s).iter = s.iter + 1 := rfl
      have htr := fixElementShapes_body_trace dimension marks s
      have hrc : (repairCalls (fixElementShapes.body dimension marks s).trace : Int) =
          (fixElementShapes.body dimension marks s).iter := by
        rw [fixElementShapes_body_repairCalls, hit]
        push_cast
        omega
      by_cases hlt : (fixElementShapes.body dimension marks s).count < s.count
      · simp only [hlt, if_true] at h
        have hnle : ¬ s.count ≤ marks (s.marked + 1) := by omega
        simp only [hnle, if_false, List.append_nil] at htr
        refine ih _ r h ?_ ?_ hrc ?_
        · rw [htr]
          split <;> simp [hun]
        · rw [htr, hit]
          split <;> simp [List.count_append, hbal]
        · intro p hp
          rw [hpc] at hp
          cases hp
          exact hlt
      · simp only [hlt, if_false, Option.some.injEq] at h
        subst h
        have hle : s.count ≤ marks (s.marked + 1) := by omega
        simp only [hle, if_true] at htr
        refine ⟨?_, hrc, ⟨fun _ => ⟨s.count, hpc, by omega⟩, fun _ => ?_⟩, fun _ => ?_⟩
        · rw [htr, hit]
          split <;> simp [List.count_append, hbal]
        · rw [htr]
          simp
        · refine ⟨s.trace ++ ([Event.fixLargeAngles] ++
              (if dimension = 3 then [Event.snap] else []) ++
              [Event.markBadQuality (marks s.marked), Event.fixShortEdgeElements,
                Event.markBadQuality (marks (s.marked + 1))]), ?_, ?_⟩
          · rw [htr]
            simp
          · split <;> simp [hun]

/-- After the call of `unMarkBadQuality` that ends a trace, no entity of top
dimension is flagged `BAD_QUALITY`. -/
theorem replay_unMark_clears (external : Event → Adapt → Adapt) (pre : List Event) (a : Adapt)
    (e : Entity)
    (he : e ∈ (replay external (pre ++ [Event.unMarkBadQuality]) a).mesh.entities
      (replay external (pre ++ [Event.unMarkBadQuality]) a).mesh.getDimension) :
    getFlag (replay external (pre ++ [Event.unMarkBadQuality]) a).flags e Flag.BAD_QUALITY =
      false := by
  have hstep : replay external (pre ++ [Event.unMarkBadQuality]) a =
      { replay external pre a with
        flags := unMarkBadQuality (replay external pre a).mesh (replay external pre a).flags } := by
    simp [replay, List.foldl_append, Event.effect]
  rw [hstep] at he ⊢
  simp only at he ⊢
  unfold unMarkBadQuality
  rw [getFlag_unMark_foldl]
  simp [he]

/-- C12: in every iteration of the loop of `fixElementShapes`, the count at
its end is the one re-marked after the short edge fixer, `unMarkBadQuality` is
called exactly when that count is not below the count at the start of the
iteration, as the call right before `midBalance`, and `midBalance` is the last
call of the iteration whatever the counts; an iteration with the call of
`unMarkBadQuality` is the last one, any other is followed by the next. So a run
calls `midBalance` once in each iteration it executes, and calls
`unMarkBadQuality` exactly when it leaves the loop through stagnation; then
that call and the `midBalance` after it are its last two calls, and right
after that call no entity of top dimension is flagged `BAD_QUALITY`. With
counts that are not negative and more fuel than the initial count, the run
returns. -/
theorem fixElementShapes_unMark_iff_stagnation (dimension : Nat) (marks : Nat → Int) :
    (∀ s : LoopState,
      (fixElementShapes.body dimension marks s).prev_count = some s.count ∧
      (fixElementShapes.body dimension marks s).count = marks (s.marked + 1) ∧
      (fixElementShapes.body dimension marks s).trace =
        s.trace ++ ([Event.fixLargeAngles] ++ (if dimension = 3 then [Event.snap] else []) ++
          [Event.markBadQuality (marks s.marked), Event.fixShortEdgeElements,
            Event.markBadQuality (marks (s.marked + 1))]) ++
          (if s.count ≤ (fixElementShapes.body dimension marks s).count then
            [Event.unMarkBadQuality] else []) ++
          [Event.midBalance]) ∧
    (∀ (fuel : Nat) (s : LoopState), s.count ≠ 0 →
      (s.count ≤ (fixElementShapes.body dimension marks s).count →
        fixElementShapes.loop dimension marks (fuel + 1) s =
          some (fixElementShapes.body dimension marks s)) ∧
      ((fixElementShapes.body dimension marks s).count < s.count →
        fixElementShapes.loop dimension marks (fuel + 1) s =
          fixElementShapes.loop dimension marks fuel (fixElementShapes.body dimension marks s))) ∧
    (∀ (fuel : Nat) (r : LoopState),
      fixElementShapes true dimension marks fuel = some (some r) →
      (r.trace.count Event.midBalance : Int) = r.iter ∧
      (repairCalls r.trace : Int) = r.iter ∧
      (Event.unMarkBadQuality ∈ r.trace ↔ ∃ p, r.prev_count = some p ∧ p ≤ r.count) ∧
      ((∃ p, r.prev_count = some p ∧ p ≤ r.count) →
        ∃ pre, r.trace = pre ++ [Event.unMarkBadQuality, Event.midBalance] ∧
          Event.unMarkBadQuality ∉ pre ∧
          ∀ (external : Event → Adapt → Adapt) (a : Adapt) (e : Entity),
            e ∈ (replay external (pre ++ [Event.unMarkBadQuality]) a).mesh.entities
              (replay external (pre ++ [Event.unMarkBadQuality]) a).mesh.getDimension →
            getFlag (replay external (pre ++ [Event.unMarkBadQuality]) a).flags e
              Flag.BAD_QUALITY = false)) ∧
    ((∀ k, 0 ≤ marks k) → ∀ fuel : Nat, (marks 0).toNat < fuel →
      ∃ r, fixElementShapes true dimension marks fuel = some (some r)) := by
  refine ⟨fun s => ⟨rfl, rfl, fixElementShapes_body_trace dimension marks s⟩, ?_, ?_, ?_⟩
  · intro fuel s hc
    constructor
    · intro hle
      have hnlt : ¬ (fixElementShapes.body dimension marks s).count < s.count := by omega
      rw [fixElementShapes.loop]
      simp only [hc, if_false, hnlt]
    · intro hlt
      rw [fixElementShapes.loop]
      simp only [hc, if_false, hlt, if_true]
  · intro fuel r h
    simp only [fixElementShapes, Bool.true_eq_false, if_false, Option.map_eq_some',
      Option.some.injEq] at h
    obtain ⟨r1, hr, rfl⟩ := h
    obtain ⟨h1, h2, h3, h4⟩ := fixElementShapes_loop_trace dimension marks fuel _ r1 hr
      (by simp) (by simp) (by simp [repairCalls]) (by intro p hp; cases hp)
    refine ⟨h1, h2, h3, fun hst => ?_⟩
    obtain ⟨pre, hpre, hnot⟩ := h4 (h3.mpr hst)
    exact ⟨pre, hpre, hnot, fun external a e he => replay_unMark_clears external pre a e he⟩
  · intro hnn fuel hfuel
    obtain ⟨r, hr, _⟩ := fixElementShapes_loop_returns dimension marks hnn fuel
      { originalCount := marks 0, count := marks 0, prev_count := none, iter := 0, marked := 1,
        trace := [Event.markBadQuality (marks 0)] }
      (hnn 0) hfuel (le_refl _) (by intro p hp; cases hp) (by simp [repairCalls])
    exact ⟨r, by simp [fixElementShapes, hr]⟩

/-- C12 at a concrete input: on the counts 7, 6, 5, 5, 5 of a mesh of dimension
2 the run makes two iterations, the second of which does not lower the count:
`midBalance` is called twice, `unMarkBadQuality` once, right before the last
`midBalance`. -/
theorem fixElementShapes_unMark_iff_stagnation_witness :
    ((∀ k, 0 ≤ stallingMarks k) ∧ (stallingMarks 0).toNat < 8) ∧
    (∃ r, fixElementShapes true 2 stallingMarks 8 = some (some r)) ∧
    ∃ r, fixElementShapes true 2 stallingMarks 8 = some (some r) ∧
      (∃ p, r.prev_count = some p ∧ p ≤ r.count) ∧
      r.trace = [Event.markBadQuality 7,
        Event.fixLargeAngles, Event.markBadQuality 6, Event.fixShortEdgeElements,
        Event.markBadQuality 5, Event.midBalance,
        Event.fixLargeAngles, Event.markBadQuality 5, Event.fixShortEdgeElements,
        Event.markBadQuality 5, Event.unMarkBadQuality, Event.midBalance] ∧
      ((r.trace.count Event.midBalance : Int) = r.iter ∧
        (repairCalls r.trace : Int) = r.iter ∧
        (Event.unMarkBadQuality ∈ r.trace ↔ ∃ p, r.prev_count = some p ∧ p ≤ r.count) ∧
        ((∃ p, r.prev_count = some p ∧ p ≤ r.count) →
          ∃ pre, r.trace = pre ++ [Event.unMarkBadQuality, Event.midBalance] ∧
            Event.unMarkBadQuality ∉ pre ∧
            ∀ (external : Event → Adapt → Adapt) (a : Adapt) (e : Entity),
              e ∈ (replay external (pre ++ [Event.unMarkBadQuality]) a).mesh.entities
                (replay external (pre ++ [Event.unMarkBadQuality]) a).mesh.getDimension →
              getFlag (replay external (pre ++ [Event.unMarkBadQuality]) a).flags e
                Flag.BAD_QUALITY = false)) :=
  ⟨⟨fun _ => Int.ofNat_nonneg _, by decide⟩,
    (fixElementShapes_unMark_iff_stagnation 2 stallingMarks).2.2.2
      (fun _ => Int.ofNat_nonneg _) 8 (by decide),
    _, rfl, ⟨5, by decide, by decide⟩, by decide,
    (fixElementShapes_unMark_iff_stagnation 2 stallingMarks).2.2.1 8 _ rfl⟩

end ma
